import Mathlib

/-!
Lowering of associative-array operations (gen/aa.cpp).

A shallow embedding of `to_pkey`, `to_keyti`, `DtoAAIndex`, `DtoAAIn` and
`DtoAARemove`.  The code generator mutates a process-wide context (`gIR`); here
that context is an explicit `IRState` threaded through every function.  The
collaborators that live outside `gen/aa.cpp` (type lowering, runtime lookup,
operand accessors, the instruction builder) are either fields of `Env` or small
models whose doc comments say what they stand for.
-/

namespace AA

/-! ## Data model -/

/-- Native (LLVM) types.  LLVM uniques its types, so pointer comparison in the
source is structural equality here. -/
inductive LLType where
  | int (bits : Nat)
  | named (id : Nat)
  | ptr (t : LLType)
  deriving DecidableEq, Repr

/-- The type a pointer type points to (a non-pointer is left alone). -/
def LLType.pointee : LLType → LLType
  | .ptr t => t
  | t => t

/-- Modelled from the spec: `getPtrToType` of the type-lowering subsystem,
"a pointer of the value's native type". -/
def getPtrToType (t : LLType) : LLType := .ptr t

/-- Native values.  Every value carries its own type, as `llvm::Value` does.
`sym` is a value defined elsewhere (a global, operand storage); `inst` is the
result of the allocation, load or call numbered `id`; the results of the pure
instructions (reinterpreting cast, compare) are identified with the expression
they compute. -/
inductive LLValue where
  | sym (id : Nat) (ty : LLType)
  | constInt (ty : LLType) (n : Nat)
  | null (ty : LLType)
  | inst (id : Nat) (ty : LLType)
  | cast (v : LLValue) (t : LLType)
  | icmpNE (a : LLValue) (b : LLValue)
  deriving DecidableEq, Repr

/-- The type of a value: `v->getType()`. -/
def LLValue.getType : LLValue → LLType
  | .sym _ ty => ty
  | .constInt ty _ => ty
  | .null ty => ty
  | .inst _ ty => ty
  | .cast _ t => t
  | .icmpNE _ _ => .int 1

/-- The value a reinterpretation to type `t` yields: the value itself when it
already has that type, the cast otherwise. -/
def LLValue.castTo (v : LLValue) (t : LLType) : LLValue :=
  if v.getType = t then v else .cast v t

/-- Semantic (front-end) types; only their identity matters here. -/
structure DType where
  id : Nat
  deriving DecidableEq, Repr

/-- Source locations; only the line number is read. -/
structure Loc where
  linnum : Nat
  deriving DecidableEq, Repr

/-- Operand descriptors.  The source tests the dynamic class of a `DValue` with
`isIm`, `isVar` and `isConst`; every other class falls in `DOther`. -/
inductive DValue where
  | DImValue (type : DType) (val : LLValue)
  | DVarValue (type : DType) (val : LLValue)
  | DConstValue (type : DType) (c : LLValue)
  | DOther (type : DType) (tag : Nat)
  deriving DecidableEq, Repr

/-- The semantic type of an operand: `key->getType()`. -/
def DValue.getType : DValue → DType
  | .DImValue t _ => t
  | .DVarValue t _ => t
  | .DConstValue t _ => t
  | .DOther t _ => t

/-- Dynamic class test `isIm()`. -/
def DValue.isIm : DValue → Bool
  | .DImValue _ _ => true
  | _ => false

/-- Dynamic class test `isVar()`. -/
def DValue.isVar : DValue → Bool
  | .DVarValue _ _ => true
  | _ => false

/-- Dynamic class test `isConst()`. -/
def DValue.isConst : DValue → Bool
  | .DConstValue _ _ => true
  | _ => false

/-- A resolved runtime entry point: name, declared parameter types, declared
return type. -/
structure LLFunction where
  name : String
  params : List LLType
  ret : LLType
  deriving DecidableEq, Repr

/-- Declared type of parameter `i`: `funcTy->getParamType(i)`.  The source only
asks for positions the fixed runtime signatures have; an index past the end
(outside that contract) yields `int 0`. -/
def LLFunction.getParamType (f : LLFunction) (i : Nat) : LLType :=
  f.params.getD i (.int 0)

/-- Instructions.  `assign` stands for whatever `DtoAssign` emits to evaluate
the source operand and place it in the destination. -/
inductive Inst where
  | alloca (id : Nat) (ty : LLType) (name : String)
  | store (v : LLValue) (p : LLValue)
  | load (id : Nat) (p : LLValue)
  | bitcast (v : LLValue) (t : LLType)
  | call (id : Nat) (fn : LLFunction) (args : List LLValue) (name : String)
  | icmpNE (a : LLValue) (b : LLValue) (name : String)
  | condBr (c : LLValue) (ifTrue : Nat) (ifFalse : Nat)
  | unreachable
  | assign (dst : DValue) (src : DValue)
  deriving DecidableEq, Repr

/-- Terminator instructions. -/
def Inst.isTerminator : Inst → Bool
  | .condBr _ _ _ => true
  | .unreachable => true
  | _ => false

/-- Conditional and unconditional branches (the only branch built here is the
conditional one). -/
def Inst.isBranch : Inst → Bool
  | .condBr _ _ _ => true
  | _ => false

/-- Compare instructions. -/
def Inst.isCompare : Inst → Bool
  | .icmpNE _ _ _ => true
  | _ => false

/-- Call instructions, to any callee. -/
def Inst.isCall : Inst → Bool
  | .call _ _ _ _ => true
  | _ => false

/-- Reinterpreting casts. -/
def Inst.isBitCast : Inst → Bool
  | .bitcast _ _ => true
  | _ => false

/-- The argument list of a call to the entry point named `n`. -/
def Inst.argsOfCallTo (n : String) : Inst → Option (List LLValue)
  | .call _ fn args _ => if fn.name = n then some args else none
  | _ => none

/-- Where a terminator sends control when its condition evaluates to `c`. -/
def Inst.target : Inst → Bool → Option Nat
  | .condBr _ t f, c => some (if c then t else f)
  | _, _ => none

/-- The outcome of `icmp ne` on two machine words. -/
def evalICmpNE (a : Nat) (b : Nat) : Bool := a != b

/-- A basic block of the enclosing function: its identity (the block's address
in the source) and its name. -/
structure BasicBlock where
  id : Nat
  name : String
  deriving DecidableEq, Repr

/-- The insertion cursor `IRScope(begin, end)`: `begin` is the block the
builder appends to, `end_` the block the scope ends at (may be null). -/
structure IRScope where
  begin : Nat
  end_ : Option Nat
  deriving DecidableEq, Repr

/-- One application of an address-producing path to an operand. -/
inductive Access where
  | rval (d : DValue)
  | lval (d : DValue)
  | assign (d : DValue)
  deriving DecidableEq, Repr

/-- The operand an access was applied to. -/
def Access.operand : Access → DValue
  | .rval d => d
  | .lval d => d
  | .assign d => d

/-- The part of the global context `gIR` this file touches: the block list of
the enclosing function (`topfunc()`) in layout order, the instructions appended
so far (in emission order, each with the block it was appended to), the cursor
(`scope()`), the instructions placed at the function's alloca point, the supply
of fresh value ids, and a ghost log of the accessor applications made on
operands. -/
structure IRState where
  blocks : List BasicBlock
  code : List (Nat × Inst)
  scope : IRScope
  allocas : List Inst
  nextId : Nat
  accesses : List Access
  deriving DecidableEq, Repr

/-- The collaborators consumed as pure queries: type lowering, the declared
signatures of the runtime entry points, the module's file-name global and the
operand accessors. -/
structure Env where
  DtoType : DType → LLType
  DtoIsPassedByRef : DType → Bool
  getTypePaddedSize : LLType → Nat
  DtoTypeInfoOf : DType → LLValue
  runtimeParams : String → List LLType
  runtimeRet : String → LLType
  DtoSize_t : LLType
  fileName : LLValue
  getRVal : DValue → LLValue
  getLVal : DValue → LLValue

/-! ## Builder primitives -/

/-- The instructions of block `b`, in order. -/
def IRState.insts (s : IRState) (b : Nat) : List Inst :=
  (s.code.filter (fun e => e.1 == b)).map (fun e => e.2)

/-- The instructions appended since the earlier state `s0`. -/
def IRState.emittedSince (s : IRState) (s0 : IRState) : List Inst :=
  (s.code.drop s0.code.length).map (fun e => e.2)

/-- How many appended instructions satisfy `p`. -/
def IRState.count (s : IRState) (p : Inst → Bool) : Nat :=
  s.code.countP (fun e => p e.2)

/-- The argument lists of the calls to entry point `n`, in emission order. -/
def IRState.callsTo (s : IRState) (n : String) : List (List LLValue) :=
  s.code.filterMap (fun e => e.2.argsOfCallTo n)

/-- The layout of the function: block identities in list order. -/
def IRState.layout (s : IRState) : List Nat := s.blocks.map (fun b => b.id)

/-- The end block of the current scope: `scopeend()`. -/
def IRState.scopeend (s : IRState) : Option Nat := s.scope.end_

/-- Identities in use: both ends of the cursor, every block of the function
and every block instructions were appended to. -/
def IRState.usedIds (s : IRState) : List Nat :=
  s.scope.begin :: (s.scope.end_.toList ++ (s.blocks.map (fun b => b.id) ++ s.code.map (fun e => e.1)))

/-- The identity of a freshly allocated block: distinct from every identity
in use. -/
def IRState.freshBlock (s : IRState) : Nat :=
  s.usedIds.foldr max 0 + 1

/-- Append an instruction at the insertion point (`gIR->ir->Create...`). -/
def IRState.emit (i : Inst) (s : IRState) : IRState :=
  { s with code := s.code ++ [(s.scope.begin, i)] }

/-- Place `b` immediately before the block `before`; with a null `before`
(or one that is not in the list) the block goes to the end of the list. -/
def insertBefore (b : BasicBlock) (before : Option Nat) : List BasicBlock → List BasicBlock
  | [] => [b]
  | x :: xs => if before = some x.id then b :: x :: xs else x :: insertBefore b before xs

/-- Modelled from the spec: `llvm::BasicBlock::Create(name, function,
insertBefore)`, the "create-basic-block" collaborator: a new, empty block is
added to the function in front of `insertBefore`. -/
def BasicBlock.Create (name : String) (before : Option Nat) (s : IRState) : Nat × IRState :=
  let id := s.freshBlock
  (id, { s with blocks := insertBefore ⟨id, name⟩ before s.blocks })

/-- Modelled from the spec: `LLVM_D_GetRuntimeFunction`,
"lookupRuntimeFunction(name)": the entry point of that name with its declared
parameter types and return type. -/
def LLVM_D_GetRuntimeFunction (env : Env) (name : String) : LLFunction :=
  { name := name, params := env.runtimeParams name, ret := env.runtimeRet name }

/-- Modelled from the spec: operand accessor `getRVal`, "reading it yields a
pure value with no side effect"; the application is logged.  Whatever the
accessor itself may emit to produce the value is not represented. -/
def getRVal (env : Env) (d : DValue) (s : IRState) : LLValue × IRState :=
  (env.getRVal d, { s with accesses := s.accesses ++ [.rval d] })

/-- Modelled from the spec: operand accessor `getLVal`, "an address can be
taken without copying"; the application is logged. -/
def getLVal (env : Env) (d : DValue) (s : IRState) : LLValue × IRState :=
  (env.getLVal d, { s with accesses := s.accesses ++ [.lval d] })

/-- Modelled from the spec: `DtoAlloca`, "allocate-local-storage": one
allocation of the given type at the function's alloca point; the result is the
address of the fresh slot. -/
def DtoAlloca (ty : LLType) (name : String) (s : IRState) : LLValue × IRState :=
  (.inst s.nextId (.ptr ty),
   { s with allocas := s.allocas ++ [.alloca s.nextId ty name], nextId := s.nextId + 1 })

/-- Modelled from the spec: `DtoStore`, one store of `v` to address `p`. -/
def DtoStore (v : LLValue) (p : LLValue) (s : IRState) : IRState :=
  s.emit (.store v p)

/-- Modelled from the spec: `DtoLoad`, one load from address `p`. -/
def DtoLoad (p : LLValue) (s : IRState) : LLValue × IRState :=
  (.inst s.nextId p.getType.pointee, { (s.emit (.load s.nextId p)) with nextId := s.nextId + 1 })

/-- Modelled from the spec: `DtoAssign`, the generic "assign expression result
into destination" operation, "which evaluates the operand exactly once and
writes its value into the destination". -/
def DtoAssign (_loc : Loc) (dst : DValue) (src : DValue) (s : IRState) : IRState :=
  { (s.emit (.assign dst src)) with accesses := s.accesses ++ [.assign src] }

/-- Modelled from the spec: `DtoBitCast`, "pointer-type-reinterpret": the
result has type `t`; a value that already has that type needs no cast. -/
def DtoBitCast (v : LLValue) (t : LLType) (s : IRState) : LLValue × IRState :=
  (v.castTo t, if v.getType = t then s else s.emit (.bitcast v t))

/-- Modelled from the spec: `DtoConstSize_t`, a constant of the target's
`size_t` type (a padded type size always fits it). -/
def DtoConstSize_t (env : Env) (n : Nat) : LLValue := .constInt env.DtoSize_t n

/-- Modelled from the spec: `DtoConstUint`, a 32-bit unsigned constant. -/
def DtoConstUint (n : Nat) : LLValue := .constInt (.int 32) (n % 2 ^ 32)

/-- Modelled from the spec: `CreateCallOrInvoke`, "call-or-invoke", outside an
exception-propagating region: one call at the insertion point whose result has
the callee's declared return type. -/
def CreateCallOrInvoke (fn : LLFunction) (args : List LLValue) (name : String)
    (s : IRState) : LLValue × IRState :=
  (.inst s.nextId fn.ret, { (s.emit (.call s.nextId fn args name)) with nextId := s.nextId + 1 })

/-- `CreateICmpNE` of the instruction builder. -/
def CreateICmpNE (a : LLValue) (b : LLValue) (name : String) (s : IRState) : LLValue × IRState :=
  (.icmpNE a b, s.emit (.icmpNE a b name))

/-- `CreateCondBr` of the instruction builder. -/
def CreateCondBr (c : LLValue) (ifTrue : Nat) (ifFalse : Nat) (s : IRState) : IRState :=
  s.emit (.condBr c ifTrue ifFalse)

/-- `CreateUnreachable` of the instruction builder. -/
def CreateUnreachable (s : IRState) : IRState := s.emit .unreachable

/-- The assignment `gIR->scope() = IRScope(begin, end)`. -/
def IRState.setScope (sc : IRScope) (s : IRState) : IRState := { s with scope := sc }

/-! ## gen/aa.cpp -/

/-- Source `to_pkey`: make sure the key value lives in memory and return the
pointer. -/
def to_pkey (env : Env) (loc : Loc) (key : DValue) (s : IRState) : LLValue × IRState :=
  let keytype := key.getType
  let needmem := !env.DtoIsPassedByRef keytype
  let chain : (LLValue × Bool × IRState) ⊕ (LLValue × IRState) :=
    if key.isIm then
      let (pkey, s1) := getRVal env key s
      .inl (pkey, needmem, s1)
    else if key.isVar then
      let (pkey, s1) := getLVal env key s
      .inl (pkey, false, s1)
    else if key.isConst then
      let (pkey, s1) := getRVal env key s
      .inl (pkey, true, s1)
    else
      let (tmp, s1) := DtoAlloca (env.DtoType keytype) "aatmpkeystorage" s
      let var := DValue.DVarValue keytype tmp
      let s2 := DtoAssign loc var key s1
      .inr (tmp, s2)
  match chain with
  | .inr r => r
  | .inl (pkey, needmem, s1) =>
    -- give memory
    if needmem then
      let (tmp, s2) := DtoAlloca (env.DtoType keytype) "aatmpkeystorage" s1
      let s3 := DtoStore pkey tmp s2
      (tmp, s3)
    else
      (pkey, s1)

/-- Source `to_keyti`: the keytype typeinfo. -/
def to_keyti (env : Env) (key : DValue) : LLValue :=
  let keytype := key.getType
  env.DtoTypeInfoOf keytype

/-- Source `DtoAAIndex`. -/
def DtoAAIndex (env : Env) (loc : Loc) (type : DType) (aa : DValue) (key : DValue)
    (lvalue : Bool) (s : IRState) : DValue × IRState :=
  -- first get the runtime function
  let func := LLVM_D_GetRuntimeFunction env (if lvalue then "_aaGet" else "_aaGetRvalue")
  -- aa param
  let (aaval, s) := if lvalue then getLVal env aa s else getRVal env aa s
  let (aaval, s) := DtoBitCast aaval (func.getParamType 0) s
  -- keyti param
  let keyti := to_keyti env key
  let (keyti, s) := DtoBitCast keyti (func.getParamType 1) s
  -- valuesize param
  let valsize := DtoConstSize_t env (env.getTypePaddedSize (env.DtoType type))
  -- pkey param
  let (pkey, s) := to_pkey env loc key s
  let (pkey, s) := DtoBitCast pkey (func.getParamType 3) s
  -- call runtime
  let (ret, s) := CreateCallOrInvoke func [aaval, keyti, valsize, pkey] "aa.index" s
  -- cast return value
  let targettype := getPtrToType (env.DtoType type)
  let (ret, s) := if ret.getType ≠ targettype then DtoBitCast ret targettype s else (ret, s)
  -- Only check bounds for rvalues
  let s :=
    if !lvalue then
      let oldend := s.scopeend
      let (failbb, s) := BasicBlock.Create "aaboundscheckfail" oldend s
      let (okbb, s) := BasicBlock.Create "aaboundsok" oldend s
      let nullaa := LLValue.null ret.getType
      let (cond, s) := CreateICmpNE nullaa ret "aaboundscheck" s
      let s := CreateCondBr cond okbb failbb s
      -- set up failbb to call the array bounds error runtime function
      let s := s.setScope ⟨failbb, some okbb⟩
      -- file param
      let (file, s) := DtoLoad env.fileName s
      -- line param
      let c := DtoConstUint loc.linnum
      -- call
      let errorfn := LLVM_D_GetRuntimeFunction env "_d_array_bounds"
      let (_, s) := CreateCallOrInvoke errorfn [file, c] "" s
      -- the function does not return
      let s := CreateUnreachable s
      -- if ok, proceed in okbb
      s.setScope ⟨okbb, oldend⟩
    else s
  (.DVarValue type ret, s)

/-- Source `DtoAAIn`. -/
def DtoAAIn (env : Env) (loc : Loc) (type : DType) (aa : DValue) (key : DValue)
    (s : IRState) : DValue × IRState :=
  let func := LLVM_D_GetRuntimeFunction env "_aaIn"
  -- aa param
  let (aaval, s) := getRVal env aa s
  let (aaval, s) := DtoBitCast aaval (func.getParamType 0) s
  -- keyti param
  let keyti := to_keyti env key
  let (keyti, s) := DtoBitCast keyti (func.getParamType 1) s
  -- pkey param
  let (pkey, s) := to_pkey env loc key s
  let (pkey, s) := DtoBitCast pkey (func.getParamType 2) s
  -- call runtime
  let (ret, s) := CreateCallOrInvoke func [aaval, keyti, pkey] "aa.in" s
  -- cast return value
  let targettype := env.DtoType type
  let (ret, s) := if ret.getType ≠ targettype then DtoBitCast ret targettype s else (ret, s)
  (.DImValue type ret, s)

/-- Source `DtoAARemove`: no result, only the effect on the context. -/
def DtoAARemove (env : Env) (loc : Loc) (aa : DValue) (key : DValue) (s : IRState) : IRState :=
  let func := LLVM_D_GetRuntimeFunction env "_aaDel"
  -- aa param
  let (aaval, s) := getRVal env aa s
  let (aaval, s) := DtoBitCast aaval (func.getParamType 0) s
  -- keyti param
  let keyti := to_keyti env key
  let (keyti, s) := DtoBitCast keyti (func.getParamType 1) s
  -- pkey param
  let (pkey, s) := to_pkey env loc key s
  let (pkey, s) := DtoBitCast pkey (func.getParamType 2) s
  -- build arg vector
  let args := [aaval, keyti, pkey]
  -- call runtime
  (CreateCallOrInvoke func args "" s).2

/-! ## A concrete context, used to evaluate the definitions -/

/-- The native type of an associative-array handle in the sample context. -/
def aaTy : LLType := .ptr (.named 0)

/-- The native type of `void*` in the sample context. -/
def voidPtr : LLType := .ptr (.int 8)

/-- The native type of a type descriptor in the sample context. -/
def tiTy : LLType := .ptr (.named 1)

/-- A sample environment: 64-bit `size_t`, semantic type `n` lowered to an
`n`-bit integer taking `n / 8` bytes, type 7 passed by reference, and the
runtime signatures written in the comments of the source. -/
def demoEnv : Env where
  DtoType := fun t => .int t.id
  DtoIsPassedByRef := fun t => t.id == 7
  getTypePaddedSize := fun t => match t with
    | .int n => n / 8
    | _ => 8
  DtoTypeInfoOf := fun t => .sym (1000 + t.id) (.ptr (.named 2))
  runtimeParams := fun n =>
    if n = "_aaGet" then [.ptr aaTy, tiTy, .int 64, voidPtr]
    else if n = "_aaGetRvalue" then [aaTy, tiTy, .int 64, voidPtr]
    else if n = "_aaIn" then [aaTy, tiTy, voidPtr]
    else if n = "_aaDel" then [aaTy, tiTy, voidPtr]
    else [.named 3, .int 32]
  runtimeRet := fun n => if n = "_aaDel" then .named 9 else voidPtr
  DtoSize_t := .int 64
  fileName := .sym 1 (.ptr (.named 3))
  getRVal := fun d => match d with
    | .DImValue _ v => v
    | .DVarValue _ v => .sym 500 v.getType.pointee
    | .DConstValue _ c => c
    | .DOther t n => .sym (600 + n) (.int t.id)
  getLVal := fun d => match d with
    | .DVarValue _ v => v
    | .DImValue _ v => v
    | .DConstValue _ c => c
    | .DOther t n => .sym (700 + n) (.ptr (.int t.id))

/-- A sample context: a function with an entry block 1 and an end block 2, the
cursor at block 1, one instruction already emitted. -/
def demoState : IRState where
  blocks := [⟨1, "entry"⟩, ⟨2, "endentry"⟩]
  code := [(1, .store (.constInt (.int 32) 0) (.sym 3 (.ptr (.int 32))))]
  scope := ⟨1, some 2⟩
  allocas := []
  nextId := 10
  accesses := []

/-- A sample container operand: a variable of associative-array type. -/
def demoAA : DValue := .DVarValue ⟨50⟩ (.sym 4 (.ptr aaTy))

/-- A sample key operand: the `int` literal 5. -/
def demoKey : DValue := .DConstValue ⟨32⟩ (.constInt (.int 32) 5)

/-! ## Summaries of the straight-line effects

The functions below are not part of the source: they name, for a given operand
and a given supply of fresh ids, the instructions the source functions append,
so that the effect of each source function can be written as one equation. -/

/-- The cast instruction `DtoBitCast` appends, if any. -/
def castCode (v : LLValue) (t : LLType) : List Inst :=
  if v.getType = t then [] else [.bitcast v t]

/-- Append a list of instructions at the insertion point. -/
def IRState.emitAll (is : List Inst) (s : IRState) : IRState :=
  { s with code := s.code ++ is.map (fun i => (s.scope.begin, i)) }

/-- Whether `to_pkey` allocates a scratch slot for this key. -/
def keyNeedsSlot (env : Env) : DValue → Bool
  | .DImValue t _ => !env.DtoIsPassedByRef t
  | .DVarValue _ _ => false
  | .DConstValue _ _ => true
  | .DOther _ _ => true

/-- The scratch slot allocated with fresh id `nid` for this key. -/
def keySlot (env : Env) (key : DValue) (nid : Nat) : LLValue :=
  .inst nid (.ptr (env.DtoType key.getType))

/-- The address `to_pkey` returns. -/
def pkeyVal (env : Env) (key : DValue) (nid : Nat) : LLValue :=
  match key with
  | .DImValue t _ => if env.DtoIsPassedByRef t then env.getRVal key else keySlot env key nid
  | .DVarValue _ _ => env.getLVal key
  | .DConstValue _ _ => keySlot env key nid
  | .DOther _ _ => keySlot env key nid

/-- The instructions `to_pkey` appends at the insertion point. -/
def pkeyCode (env : Env) (key : DValue) (nid : Nat) : List Inst :=
  match key with
  | .DImValue t _ =>
    if env.DtoIsPassedByRef t then [] else [.store (env.getRVal key) (keySlot env key nid)]
  | .DVarValue _ _ => []
  | .DConstValue _ _ => [.store (env.getRVal key) (keySlot env key nid)]
  | .DOther t _ => [.assign (.DVarValue t (keySlot env key nid)) key]

/-- The allocations `to_pkey` places at the alloca point. -/
def pkeyAllocas (env : Env) (key : DValue) (nid : Nat) : List Inst :=
  if keyNeedsSlot env key then [.alloca nid (env.DtoType key.getType) "aatmpkeystorage"] else []

/-- The number of fresh value ids `to_pkey` consumes. -/
def pkeyIds (env : Env) (key : DValue) : Nat :=
  if keyNeedsSlot env key then 1 else 0

/-- The address-producing path `to_pkey` applies to the key. -/
def pkeyAccess : DValue → Access
  | .DImValue t v => .rval (.DImValue t v)
  | .DVarValue t v => .lval (.DVarValue t v)
  | .DConstValue t c => .rval (.DConstValue t c)
  | .DOther t n => .assign (.DOther t n)

/-- The entry point `DtoAAIndex` resolves in each mode. -/
def indexEntry (lvalue : Bool) : String := if lvalue then "_aaGet" else "_aaGetRvalue"

/-- The container handle `DtoAAIndex` reads in each mode. -/
def indexHandle (env : Env) (aa : DValue) (lvalue : Bool) : LLValue :=
  if lvalue then env.getLVal aa else env.getRVal aa

/-- The arguments of the call `DtoAAIndex` emits. -/
def indexArgs (env : Env) (type : DType) (aa key : DValue) (lvalue : Bool) (nid : Nat) :
    List LLValue :=
  let f := LLVM_D_GetRuntimeFunction env (indexEntry lvalue)
  [(indexHandle env aa lvalue).castTo (f.getParamType 0),
   (to_keyti env key).castTo (f.getParamType 1),
   DtoConstSize_t env (env.getTypePaddedSize (env.DtoType type)),
   (pkeyVal env key nid).castTo (f.getParamType 3)]

/-- The result of the call `DtoAAIndex` emits. -/
def indexCallRes (env : Env) (key : DValue) (lvalue : Bool) (nid : Nat) : LLValue :=
  .inst (nid + pkeyIds env key) (LLVM_D_GetRuntimeFunction env (indexEntry lvalue)).ret

/-- The address `DtoAAIndex` returns. -/
def indexRet (env : Env) (type : DType) (key : DValue) (lvalue : Bool) (nid : Nat) : LLValue :=
  (indexCallRes env key lvalue nid).castTo (getPtrToType (env.DtoType type))

/-- The instructions `DtoAAIndex` appends before the call. -/
def indexPre (env : Env) (aa key : DValue) (lvalue : Bool) (nid : Nat) : List Inst :=
  let f := LLVM_D_GetRuntimeFunction env (indexEntry lvalue)
  castCode (indexHandle env aa lvalue) (f.getParamType 0) ++
    (castCode (to_keyti env key) (f.getParamType 1) ++
      (pkeyCode env key nid ++ castCode (pkeyVal env key nid) (f.getParamType 3)))

/-- The call `DtoAAIndex` emits. -/
def indexCall (env : Env) (type : DType) (aa key : DValue) (lvalue : Bool) (nid : Nat) : Inst :=
  .call (nid + pkeyIds env key) (LLVM_D_GetRuntimeFunction env (indexEntry lvalue))
    (indexArgs env type aa key lvalue nid) "aa.index"

/-- The instructions `DtoAAIndex` appends up to and including the cast of the
call result. -/
def indexCode (env : Env) (type : DType) (aa key : DValue) (lvalue : Bool) (nid : Nat) :
    List Inst :=
  indexPre env aa key lvalue nid ++
    (indexCall env type aa key lvalue nid ::
      castCode (indexCallRes env key lvalue nid) (getPtrToType (env.DtoType type)))

/-- The context after `DtoAAIndex` has adapted the call result, before the
bounds check. -/
def indexState (env : Env) (type : DType) (aa key : DValue) (lvalue : Bool) (s : IRState) :
    IRState :=
  { s with
    code := s.code ++ (indexCode env type aa key lvalue s.nextId).map (fun i => (s.scope.begin, i))
    allocas := s.allocas ++ pkeyAllocas env key s.nextId
    nextId := s.nextId + pkeyIds env key + 1
    accesses := s.accesses ++ [if lvalue then .lval aa else .rval aa, pkeyAccess key] }

/-- The instructions the bounds check appends to the block that was current. -/
def checkCode (ret : LLValue) (okbb failbb : Nat) : List Inst :=
  [.icmpNE (.null ret.getType) ret "aaboundscheck",
   .condBr (.icmpNE (.null ret.getType) ret) okbb failbb]

/-- The instructions the bounds check places in the fail block. -/
def failCode (env : Env) (loc : Loc) (nid : Nat) : List Inst :=
  [.load nid env.fileName,
   .call (nid + 1) (LLVM_D_GetRuntimeFunction env "_d_array_bounds")
     [.inst nid env.fileName.getType.pointee, DtoConstUint loc.linnum] "",
   .unreachable]

/-- The arguments of the call `DtoAAIn` and `DtoAARemove` emit to entry point
`n`. -/
def keyedArgs (env : Env) (n : String) (aa key : DValue) (nid : Nat) : List LLValue :=
  let f := LLVM_D_GetRuntimeFunction env n
  [(env.getRVal aa).castTo (f.getParamType 0),
   (to_keyti env key).castTo (f.getParamType 1),
   (pkeyVal env key nid).castTo (f.getParamType 2)]

/-- The instructions `DtoAAIn` and `DtoAARemove` append before the call. -/
def keyedPre (env : Env) (n : String) (aa key : DValue) (nid : Nat) : List Inst :=
  let f := LLVM_D_GetRuntimeFunction env n
  castCode (env.getRVal aa) (f.getParamType 0) ++
    (castCode (to_keyti env key) (f.getParamType 1) ++
      (pkeyCode env key nid ++ castCode (pkeyVal env key nid) (f.getParamType 2)))

/-- The call `DtoAAIn` and `DtoAARemove` emit. -/
def keyedCall (env : Env) (n : String) (cname : String) (aa key : DValue) (nid : Nat) : Inst :=
  .call (nid + pkeyIds env key) (LLVM_D_GetRuntimeFunction env n) (keyedArgs env n aa key nid) cname

/-- The result of the call `DtoAAIn` emits. -/
def inCallRes (env : Env) (key : DValue) (nid : Nat) : LLValue :=
  .inst (nid + pkeyIds env key) (LLVM_D_GetRuntimeFunction env "_aaIn").ret

/-! ## Basic facts -/

theorem emitAll_nil (s : IRState) : s.emitAll [] = s := by
  simp [IRState.emitAll]

theorem emit_eq_emitAll (s : IRState) (i : Inst) : s.emit i = s.emitAll [i] := by
  simp [IRState.emit, IRState.emitAll]

theorem DtoBitCast_eq (v : LLValue) (t : LLType) (s : IRState) :
    DtoBitCast v t s = (v.castTo t, s.emitAll (castCode v t)) := by
  unfold DtoBitCast castCode
  split <;> simp [emit_eq_emitAll, emitAll_nil]

theorem guarded_cast_eq (v : LLValue) (t : LLType) (s : IRState) :
    (if v.getType ≠ t then DtoBitCast v t s else (v, s)) = DtoBitCast v t s := by
  by_cases h : v.getType = t
  · simp [h, DtoBitCast, LLValue.castTo]
  · simp [h]

theorem castTo_getType (v : LLValue) (t : LLType) : (v.castTo t).getType = t := by
  unfold LLValue.castTo
  split
  · assumption
  · rfl

theorem to_pkey_eq (env : Env) (loc : Loc) (key : DValue) (s : IRState) :
    to_pkey env loc key s =
      (pkeyVal env key s.nextId,
       { s with
         code := s.code ++ (pkeyCode env key s.nextId).map (fun i => (s.scope.begin, i))
         allocas := s.allocas ++ pkeyAllocas env key s.nextId
         nextId := s.nextId + pkeyIds env key
         accesses := s.accesses ++ [pkeyAccess key] }) := by
  cases key with
  | DImValue t v =>
    by_cases h : env.DtoIsPassedByRef t = true <;>
      simp [to_pkey, DValue.isIm, DValue.getType, getRVal, DtoAlloca, DtoStore, IRState.emit, h,
        pkeyVal, pkeyCode, pkeyAllocas, pkeyIds, pkeyAccess, keyNeedsSlot, keySlot]
  | DVarValue t v =>
    simp [to_pkey, DValue.isIm, DValue.isVar, DValue.getType, getLVal,
      pkeyVal, pkeyCode, pkeyAllocas, pkeyIds, pkeyAccess, keyNeedsSlot]
  | DConstValue t c =>
    simp [to_pkey, DValue.isIm, DValue.isVar, DValue.isConst, DValue.getType, getRVal, DtoAlloca,
      DtoStore, IRState.emit, pkeyVal, pkeyCode, pkeyAllocas, pkeyIds, pkeyAccess, keyNeedsSlot,
      keySlot]
  | DOther t n =>
    simp [to_pkey, DValue.isIm, DValue.isVar, DValue.isConst, DValue.getType, DtoAlloca,
      DtoAssign, IRState.emit, pkeyVal, pkeyCode, pkeyAllocas, pkeyIds, pkeyAccess, keyNeedsSlot,
      keySlot]

/-! ### Fresh block identities -/

theorem le_foldr_max (l : List Nat) (x : Nat) (h : x ∈ l) : x ≤ l.foldr max 0 := by
  induction l with
  | nil => cases h
  | cons a l ih =>
    simp only [List.foldr_cons]
    rcases List.mem_cons.mp h with h | h
    · subst h; exact Nat.le_max_left _ _
    · exact Nat.le_trans (ih h) (Nat.le_max_right _ _)

theorem foldr_max_le (l : List Nat) (m : Nat) (h : ∀ x ∈ l, x ≤ m) : l.foldr max 0 ≤ m := by
  induction l with
  | nil => simp
  | cons a l ih =>
    simp only [List.foldr_cons]
    exact Nat.max_le.mpr ⟨h a (List.mem_cons_self _ _), ih (fun x hx => h x (List.mem_cons_of_mem _ hx))⟩

theorem foldr_max_congr (l1 l2 : List Nat) (h : ∀ x, x ∈ l1 ↔ x ∈ l2) :
    l1.foldr max 0 = l2.foldr max 0 :=
  Nat.le_antisymm
    (foldr_max_le _ _ (fun x hx => le_foldr_max _ _ ((h x).mp hx)))
    (foldr_max_le _ _ (fun x hx => le_foldr_max _ _ ((h x).mpr hx)))

theorem mem_insertBefore (b x : BasicBlock) (e : Option Nat) (l : List BasicBlock) :
    x ∈ insertBefore b e l ↔ x = b ∨ x ∈ l := by
  induction l with
  | nil => simp [insertBefore]
  | cons a l ih =>
    unfold insertBefore
    split
    · simp
    · simp only [List.mem_cons, ih]
      constructor
      · rintro (h | h | h)
        · exact Or.inr (Or.inl h)
        · exact Or.inl h
        · exact Or.inr (Or.inr h)
      · rintro (h | h | h)
        · exact Or.inr (Or.inl h)
        · exact Or.inl h
        · exact Or.inr (Or.inr h)

theorem length_insertBefore (b : BasicBlock) (e : Option Nat) (l : List BasicBlock) :
    (insertBefore b e l).length = l.length + 1 := by
  induction l with
  | nil => simp [insertBefore]
  | cons a l ih =>
    unfold insertBefore
    split
    · simp
    · simp [ih]

theorem perm_insertBefore (b : BasicBlock) (e : Option Nat) (l : List BasicBlock) :
    (insertBefore b e l).Perm (b :: l) := by
  induction l with
  | nil => simp [insertBefore]
  | cons a l ih =>
    unfold insertBefore
    split
    · exact List.Perm.refl _
    · exact (List.Perm.cons a ih).trans (List.Perm.swap b a l)

theorem mem_usedIds (s : IRState) (x : Nat) :
    x ∈ s.usedIds ↔
      x = s.scope.begin ∨ s.scope.end_ = some x ∨ (∃ b ∈ s.blocks, b.id = x) ∨
        ∃ e ∈ s.code, e.1 = x := by
  unfold IRState.usedIds
  simp only [List.mem_cons, List.mem_append, List.mem_map, Option.mem_toList, Option.mem_def]

theorem scope_begin_lt_fresh (s : IRState) : s.scope.begin < s.freshBlock :=
  Nat.lt_succ_of_le (le_foldr_max _ _ ((mem_usedIds s _).mpr (Or.inl rfl)))

theorem scope_end_lt_fresh (s : IRState) (e : Nat) (h : s.scope.end_ = some e) :
    e < s.freshBlock :=
  Nat.lt_succ_of_le (le_foldr_max _ _ ((mem_usedIds s _).mpr (Or.inr (Or.inl h))))

theorem block_lt_fresh (s : IRState) (b : BasicBlock) (h : b ∈ s.blocks) :
    b.id < s.freshBlock :=
  Nat.lt_succ_of_le (le_foldr_max _ _ ((mem_usedIds s _).mpr (Or.inr (Or.inr (Or.inl ⟨b, h, rfl⟩)))))

theorem code_lt_fresh (s : IRState) (e : Nat × Inst) (h : e ∈ s.code) :
    e.1 < s.freshBlock :=
  Nat.lt_succ_of_le (le_foldr_max _ _ ((mem_usedIds s _).mpr (Or.inr (Or.inr (Or.inr ⟨e, h, rfl⟩)))))

/-- Appending at the insertion point and touching the fields that hold no block
identity leaves the supply of fresh blocks alone. -/
theorem freshBlock_straight (s : IRState) (is : List Inst) (al : List Inst) (n : Nat)
    (ac : List Access) :
    IRState.freshBlock
      { s with
        code := s.code ++ is.map (fun i => (s.scope.begin, i))
        allocas := al, nextId := n, accesses := ac } = s.freshBlock := by
  unfold IRState.freshBlock
  congr 1
  apply foldr_max_congr
  intro x
  simp only [mem_usedIds, List.mem_append, List.mem_map]
  constructor
  · rintro (h | h | h | ⟨e, he | ⟨i, _, rfl⟩, rfl⟩)
    · exact Or.inl h
    · exact Or.inr (Or.inl h)
    · exact Or.inr (Or.inr (Or.inl h))
    · exact Or.inr (Or.inr (Or.inr ⟨e, he, rfl⟩))
    · exact Or.inl rfl
  · rintro (h | h | h | ⟨e, he, rfl⟩)
    · exact Or.inl h
    · exact Or.inr (Or.inl h)
    · exact Or.inr (Or.inr (Or.inl h))
    · exact Or.inr (Or.inr (Or.inr ⟨e, Or.inl he, rfl⟩))

/-- After a block has been created, the next fresh identity is the one after
it. -/
theorem freshBlock_Create (s : IRState) (name : String) (e : Option Nat) :
    (BasicBlock.Create name e s).2.freshBlock = s.freshBlock + 1 := by
  have key : (BasicBlock.Create name e s).2.usedIds.foldr max 0 = s.freshBlock := by
    apply Nat.le_antisymm
    · apply foldr_max_le
      intro x hx
      rw [mem_usedIds] at hx
      simp only [BasicBlock.Create, mem_insertBefore] at hx
      rcases hx with h | h | ⟨b, hb | hb, rfl⟩ | ⟨c, hc, rfl⟩
      · rw [h]; exact Nat.le_of_lt (scope_begin_lt_fresh s)
      · exact Nat.le_of_lt (scope_end_lt_fresh s x h)
      · rw [hb]
      · exact Nat.le_of_lt (block_lt_fresh s b hb)
      · exact Nat.le_of_lt (code_lt_fresh s c hc)
    · apply le_foldr_max
      rw [mem_usedIds]
      refine Or.inr (Or.inr (Or.inl ⟨⟨s.freshBlock, name⟩, ?_, rfl⟩))
      simp [BasicBlock.Create, mem_insertBefore]
  show (BasicBlock.Create name e s).2.usedIds.foldr max 0 + 1 = s.freshBlock + 1
  rw [key]

theorem freshBlock_straight_insert (s : IRState) (is : List Inst) (al : List Inst) (n : Nat)
    (ac : List Access) (name : String) (e : Option Nat) :
    IRState.freshBlock
      { blocks := insertBefore ⟨s.freshBlock, name⟩ e s.blocks
        code := s.code ++ is.map (fun i => (s.scope.begin, i))
        scope := s.scope, allocas := al, nextId := n, accesses := ac } = s.freshBlock + 1 := by
  have h := freshBlock_Create
    { s with
      code := s.code ++ is.map (fun i => (s.scope.begin, i))
      allocas := al, nextId := n, accesses := ac } name e
  simp only [BasicBlock.Create, freshBlock_straight] at h
  exact h

/-! ### The source functions as single equations -/

theorem guarded_cast_eq2 (v : LLValue) (t : LLType) (s : IRState) :
    (if v.getType = t then (v, s) else DtoBitCast v t s) = DtoBitCast v t s := by
  by_cases h : v.getType = t
  · simp [h, DtoBitCast, LLValue.castTo]
  · simp [h]

theorem DtoAAIndex_stage (env : Env) (loc : Loc) (type : DType) (aa key : DValue)
    (lvalue : Bool) (s : IRState) :
    DtoAAIndex env loc type aa key lvalue s =
      (.DVarValue type (indexRet env type key lvalue s.nextId),
       if lvalue then indexState env type aa key lvalue s
       else
         { blocks := insertBefore ⟨s.freshBlock + 1, "aaboundsok"⟩ s.scope.end_
             (insertBefore ⟨s.freshBlock, "aaboundscheckfail"⟩ s.scope.end_ s.blocks)
           code := (indexState env type aa key lvalue s).code ++
             ((checkCode (indexRet env type key lvalue s.nextId) (s.freshBlock + 1)
                 s.freshBlock).map (fun i => (s.scope.begin, i)) ++
               (failCode env loc (s.nextId + pkeyIds env key + 1)).map
                 (fun i => (s.freshBlock, i)))
           scope := ⟨s.freshBlock + 1, s.scope.end_⟩
           allocas := s.allocas ++ pkeyAllocas env key s.nextId
           nextId := s.nextId + pkeyIds env key + 3
           accesses := s.accesses ++ [.rval aa, pkeyAccess key] }) := by
  simp only [DtoAAIndex, ne_eq, ite_not, guarded_cast_eq2]
  cases lvalue
  · simp only [Bool.false_eq_true, reduceIte, Bool.not_false, getRVal, DtoBitCast_eq, to_pkey_eq, CreateCallOrInvoke, emit_eq_emitAll,
      IRState.emitAll, List.append_assoc, ← List.map_append, CreateICmpNE, CreateCondBr,
      BasicBlock.Create, IRState.scopeend, IRState.setScope, DtoLoad, CreateUnreachable,
      freshBlock_straight, freshBlock_straight_insert]
    simp [indexRet, indexState, indexCode, indexPre, indexCall, indexArgs, indexCallRes,
      indexEntry, indexHandle, checkCode, failCode, Nat.add_assoc]
  · simp [getLVal, DtoBitCast_eq, to_pkey_eq, CreateCallOrInvoke, guarded_cast_eq2,
      guarded_cast_eq, emit_eq_emitAll, IRState.emitAll, indexRet, indexState, indexCode,
      indexPre, indexCall, indexArgs, indexCallRes, indexEntry, indexHandle]

theorem DtoAAIn_eq (env : Env) (loc : Loc) (type : DType) (aa key : DValue) (s : IRState) :
    DtoAAIn env loc type aa key s =
      (.DImValue type ((inCallRes env key s.nextId).castTo (env.DtoType type)),
       { s with
         code := s.code ++
           (keyedPre env "_aaIn" aa key s.nextId ++
             (keyedCall env "_aaIn" "aa.in" aa key s.nextId ::
               castCode (inCallRes env key s.nextId) (env.DtoType type))).map
             (fun i => (s.scope.begin, i))
         allocas := s.allocas ++ pkeyAllocas env key s.nextId
         nextId := s.nextId + pkeyIds env key + 1
         accesses := s.accesses ++ [.rval aa, pkeyAccess key] }) := by
  simp only [DtoAAIn, ne_eq, ite_not, guarded_cast_eq2]
  simp [getRVal, DtoBitCast_eq, to_pkey_eq, CreateCallOrInvoke, emit_eq_emitAll,
    IRState.emitAll, keyedPre, keyedCall, keyedArgs, inCallRes]

theorem DtoAARemove_eq (env : Env) (loc : Loc) (aa key : DValue) (s : IRState) :
    DtoAARemove env loc aa key s =
      { s with
        code := s.code ++
          (keyedPre env "_aaDel" aa key s.nextId ++
            [keyedCall env "_aaDel" "" aa key s.nextId]).map (fun i => (s.scope.begin, i))
        allocas := s.allocas ++ pkeyAllocas env key s.nextId
        nextId := s.nextId + pkeyIds env key + 1
        accesses := s.accesses ++ [.rval aa, pkeyAccess key] } := by
  simp [DtoAARemove, getRVal, DtoBitCast_eq, to_pkey_eq, CreateCallOrInvoke, emit_eq_emitAll,
    IRState.emitAll, keyedPre, keyedCall, keyedArgs]

/-! ### Reading the appended instructions back -/

theorem filterMap_tag_comp (b : Nat) (n : String) (is : List Inst) :
    is.filterMap ((fun e : Nat × Inst => e.2.argsOfCallTo n) ∘ fun i => (b, i)) =
      is.filterMap (Inst.argsOfCallTo n) := rfl

theorem countP_tag (b : Nat) (p : Inst → Bool) (is : List Inst) :
    (is.map (fun i => (b, i))).countP (fun e => p e.2) = is.countP p := by
  induction is with
  | nil => rfl
  | cons a is ih => simp [List.countP_cons, ih]

theorem insts_tag (b b2 : Nat) (is : List Inst) :
    ((is.map (fun i => (b, i))).filter (fun e => e.1 == b2)).map (fun e => e.2) =
      if b = b2 then is else [] := by
  by_cases h : b = b2
  · subst h
    induction is with
    | nil => simp
    | cons a is ih => simpa using ih
  · rw [if_neg h, List.map_eq_nil_iff, List.filter_eq_nil_iff]
    intro e he
    obtain ⟨i, _, rfl⟩ := List.mem_map.mp he
    simpa using h

theorem insts_fresh (s : IRState) (b : Nat) (h : s.freshBlock ≤ b) : s.insts b = [] := by
  unfold IRState.insts
  rw [List.map_eq_nil_iff, List.filter_eq_nil_iff]
  intro e he
  have := code_lt_fresh s e he
  simp only [beq_iff_eq]
  omega

theorem castCode_calls (v : LLValue) (t : LLType) (n : String) :
    (castCode v t).filterMap (Inst.argsOfCallTo n) = [] := by
  unfold castCode
  split <;> simp [Inst.argsOfCallTo]

theorem pkeyCode_calls (env : Env) (key : DValue) (nid : Nat) (n : String) :
    (pkeyCode env key nid).filterMap (Inst.argsOfCallTo n) = [] := by
  cases key <;> simp only [pkeyCode] <;> try split
  all_goals simp [Inst.argsOfCallTo]

theorem castCode_countP (v : LLValue) (t : LLType) (p : Inst → Bool)
    (hp : p (.bitcast v t) = false) : (castCode v t).countP p = 0 := by
  unfold castCode
  split <;> simp [hp]

theorem pkeyCode_countP (env : Env) (key : DValue) (nid : Nat) (p : Inst → Bool)
    (hs : ∀ v q, p (.store v q) = false) (ha : ∀ d e, p (.assign d e) = false) :
    (pkeyCode env key nid).countP p = 0 := by
  cases key <;> simp only [pkeyCode] <;> try split
  all_goals simp [hs, ha]

theorem pkeyVal_eq (env : Env) (loc : Loc) (key : DValue) (s : IRState) :
    pkeyVal env key s.nextId = (to_pkey env loc key s).1 := by
  rw [to_pkey_eq]

theorem pkeyAccess_operand (key : DValue) : (pkeyAccess key).operand = key := by
  cases key <;> rfl

theorem indexCall_args (env : Env) (type : DType) (aa key : DValue) (lvalue : Bool) (nid : Nat)
    (n : String) :
    (indexCall env type aa key lvalue nid).argsOfCallTo n =
      if indexEntry lvalue = n then some (indexArgs env type aa key lvalue nid) else none := by
  simp [indexCall, Inst.argsOfCallTo, LLVM_D_GetRuntimeFunction]

theorem checkCode_calls (ret : LLValue) (ok fail : Nat) (n : String) :
    (checkCode ret ok fail).filterMap (Inst.argsOfCallTo n) = [] := by
  simp [checkCode, Inst.argsOfCallTo]

theorem failCode_calls (env : Env) (loc : Loc) (nid : Nat) (n : String) :
    (failCode env loc nid).filterMap (Inst.argsOfCallTo n) =
      if "_d_array_bounds" = n then
        [[.inst nid env.fileName.getType.pointee, DtoConstUint loc.linnum]]
      else [] := by
  by_cases h : "_d_array_bounds" = n <;>
    simp [failCode, Inst.argsOfCallTo, LLVM_D_GetRuntimeFunction, h]

theorem DtoAAIndex_code (env : Env) (loc : Loc) (type : DType) (aa key : DValue)
    (lvalue : Bool) (s : IRState) :
    (DtoAAIndex env loc type aa key lvalue s).2.code =
      s.code ++
        ((indexCode env type aa key lvalue s.nextId).map (fun i => (s.scope.begin, i)) ++
          if lvalue then []
          else
            (checkCode (indexRet env type key lvalue s.nextId) (s.freshBlock + 1)
                s.freshBlock).map (fun i => (s.scope.begin, i)) ++
              (failCode env loc (s.nextId + pkeyIds env key + 1)).map
                (fun i => (s.freshBlock, i))) := by
  rw [DtoAAIndex_stage]
  cases lvalue <;> simp [indexState]

theorem DtoAAIndex_callsTo (env : Env) (loc : Loc) (type : DType) (aa key : DValue)
    (lvalue : Bool) (s : IRState) (n : String) :
    (DtoAAIndex env loc type aa key lvalue s).2.callsTo n =
      s.callsTo n ++
        ((if indexEntry lvalue = n then [indexArgs env type aa key lvalue s.nextId] else []) ++
          if lvalue then []
          else if "_d_array_bounds" = n then
            [[.inst (s.nextId + pkeyIds env key + 1) env.fileName.getType.pointee,
              DtoConstUint loc.linnum]]
          else []) := by
  unfold IRState.callsTo
  rw [DtoAAIndex_code]
  cases lvalue
  · by_cases h : indexEntry false = n <;>
      simp [List.filterMap_append, filterMap_tag_comp, indexCode, indexPre, castCode_calls,
        pkeyCode_calls, List.filterMap_cons, indexCall_args, checkCode_calls, failCode_calls, h]
  · by_cases h : indexEntry true = n <;>
      simp [List.filterMap_append, filterMap_tag_comp, indexCode, indexPre, castCode_calls,
        pkeyCode_calls, List.filterMap_cons, indexCall_args, h]

theorem keyedCall_args (env : Env) (n cname : String) (aa key : DValue) (nid : Nat)
    (m : String) :
    (keyedCall env n cname aa key nid).argsOfCallTo m =
      if n = m then some (keyedArgs env n aa key nid) else none := by
  simp [keyedCall, Inst.argsOfCallTo, LLVM_D_GetRuntimeFunction]

theorem keyedPre_calls (env : Env) (n : String) (aa key : DValue) (nid : Nat) (m : String) :
    (keyedPre env n aa key nid).filterMap (Inst.argsOfCallTo m) = [] := by
  simp [keyedPre, List.filterMap_append, castCode_calls, pkeyCode_calls]

theorem keyedPre_countP (env : Env) (n : String) (aa key : DValue) (nid : Nat) (p : Inst → Bool)
    (hb : ∀ v t, p (.bitcast v t) = false) (hs : ∀ v q, p (.store v q) = false)
    (ha : ∀ d e, p (.assign d e) = false) :
    (keyedPre env n aa key nid).countP p = 0 := by
  simp [keyedPre, List.countP_append, castCode_countP, pkeyCode_countP, hb, hs, ha]

theorem indexPre_countP (env : Env) (aa key : DValue) (lvalue : Bool) (nid : Nat)
    (p : Inst → Bool)
    (hb : ∀ v t, p (.bitcast v t) = false) (hs : ∀ v q, p (.store v q) = false)
    (ha : ∀ d e, p (.assign d e) = false) :
    (indexPre env aa key lvalue nid).countP p = 0 := by
  simp [indexPre, List.countP_append, castCode_countP, pkeyCode_countP, hb, hs, ha]

theorem indexCode_countP (env : Env) (type : DType) (aa key : DValue) (lvalue : Bool) (nid : Nat)
    (p : Inst → Bool)
    (hb : ∀ v t, p (.bitcast v t) = false) (hs : ∀ v q, p (.store v q) = false)
    (ha : ∀ d e, p (.assign d e) = false) :
    (indexCode env type aa key lvalue nid).countP p =
      if p (indexCall env type aa key lvalue nid) = true then 1 else 0 := by
  simp only [indexCode, List.countP_append, List.countP_cons, indexPre_countP _ _ _ _ _ p hb hs ha,
    castCode_countP _ _ p (hb _ _)]
  simp

theorem DtoAAIn_callsTo (env : Env) (loc : Loc) (type : DType) (aa key : DValue) (s : IRState)
    (m : String) :
    (DtoAAIn env loc type aa key s).2.callsTo m =
      s.callsTo m ++ if "_aaIn" = m then [keyedArgs env "_aaIn" aa key s.nextId] else [] := by
  rw [DtoAAIn_eq]
  by_cases h : "_aaIn" = m <;>
    simp [IRState.callsTo, List.filterMap_append, filterMap_tag_comp, keyedPre_calls,
      List.filterMap_cons, keyedCall_args, castCode_calls, h]

theorem DtoAARemove_callsTo (env : Env) (loc : Loc) (aa key : DValue) (s : IRState)
    (m : String) :
    (DtoAARemove env loc aa key s).callsTo m =
      s.callsTo m ++ if "_aaDel" = m then [keyedArgs env "_aaDel" aa key s.nextId] else [] := by
  rw [DtoAARemove_eq]
  by_cases h : "_aaDel" = m <;>
    simp [IRState.callsTo, List.filterMap_append, filterMap_tag_comp, keyedPre_calls,
      List.filterMap_cons, keyedCall_args, h]

theorem DtoAAIn_count (env : Env) (loc : Loc) (type : DType) (aa key : DValue) (s : IRState)
    (p : Inst → Bool)
    (hb : ∀ v t, p (.bitcast v t) = false) (hs : ∀ v q, p (.store v q) = false)
    (ha : ∀ d e, p (.assign d e) = false) :
    (DtoAAIn env loc type aa key s).2.count p =
      s.count p + if p (keyedCall env "_aaIn" "aa.in" aa key s.nextId) = true then 1 else 0 := by
  rw [DtoAAIn_eq]
  simp only [IRState.count, List.countP_append, countP_tag, List.countP_cons,
    keyedPre_countP _ _ _ _ _ p hb hs ha, castCode_countP _ _ p (hb _ _)]
  simp

theorem DtoAARemove_count (env : Env) (loc : Loc) (aa key : DValue) (s : IRState)
    (p : Inst → Bool)
    (hb : ∀ v t, p (.bitcast v t) = false) (hs : ∀ v q, p (.store v q) = false)
    (ha : ∀ d e, p (.assign d e) = false) :
    (DtoAARemove env loc aa key s).count p =
      s.count p + if p (keyedCall env "_aaDel" "" aa key s.nextId) = true then 1 else 0 := by
  rw [DtoAARemove_eq]
  simp only [IRState.count, List.countP_append, countP_tag, List.countP_cons,
    keyedPre_countP _ _ _ _ _ p hb hs ha, List.countP_nil]
  simp

theorem DtoAAIndex_write_count (env : Env) (loc : Loc) (type : DType) (aa key : DValue)
    (s : IRState) (p : Inst → Bool)
    (hb : ∀ v t, p (.bitcast v t) = false) (hs : ∀ v q, p (.store v q) = false)
    (ha : ∀ d e, p (.assign d e) = false) :
    (DtoAAIndex env loc type aa key true s).2.count p =
      s.count p + if p (indexCall env type aa key true s.nextId) = true then 1 else 0 := by
  unfold IRState.count
  rw [DtoAAIndex_code]
  simp only [reduceIte, List.append_nil, List.countP_append, countP_tag,
    indexCode_countP _ _ _ _ _ _ p hb hs ha]

theorem DtoAAIndex_read_insts (env : Env) (loc : Loc) (type : DType) (aa key : DValue)
    (s : IRState) (b : Nat) :
    (DtoAAIndex env loc type aa key false s).2.insts b =
      s.insts b ++
        ((if s.scope.begin = b then
            indexCode env type aa key false s.nextId ++
              checkCode (indexRet env type key false s.nextId) (s.freshBlock + 1) s.freshBlock
          else []) ++
          if s.freshBlock = b then failCode env loc (s.nextId + pkeyIds env key + 1) else []) := by
  unfold IRState.insts
  rw [DtoAAIndex_code]
  simp only [Bool.false_eq_true, reduceIte, List.filter_append, List.map_append, insts_tag]
  by_cases h : s.scope.begin = b <;> simp [h]

theorem indexCode_terminators (env : Env) (type : DType) (aa key : DValue) (lvalue : Bool)
    (nid : Nat) : (indexCode env type aa key lvalue nid).countP Inst.isTerminator = 0 := by
  rw [indexCode_countP _ _ _ _ _ _ _ (fun _ _ => rfl) (fun _ _ => rfl) (fun _ _ => rfl)]
  simp [indexCall, Inst.isTerminator]

theorem insertBefore_split (b : BasicBlock) (e : Option Nat) (pre post : List BasicBlock)
    (hpre : ∀ x ∈ pre, some x.id ≠ e) (hpost : post.head?.map (fun x => x.id) = e) :
    insertBefore b e (pre ++ post) = pre ++ b :: post := by
  induction pre with
  | nil =>
    cases post with
    | nil => simp [insertBefore]
    | cons x xs =>
      simp only [List.head?_cons, Option.map_some'] at hpost
      simp [insertBefore, hpost]
  | cons a pre ih =>
    have ha : ¬ e = some a.id := fun h => hpre a (List.mem_cons_self _ _) h.symm
    have ih2 := ih (fun x hx => hpre x (List.mem_cons_of_mem _ hx))
    show insertBefore b e (a :: (pre ++ post)) = a :: (pre ++ b :: post)
    rw [insertBefore, if_neg ha, ih2]

/-! ## The claims -/

/-- C1: for every element type, container, key and mode, `DtoAAIndex` appends
exactly one call to the indexed-access entry point, which is `_aaGet` in write
mode and `_aaGetRvalue` in read mode (the other one is not called); the call
has exactly four arguments, in this order: the container handle (`getLVal` in
write mode, `getRVal` in read mode), the type descriptor of the key's type, the
constant padded byte size of the element type's native type, and the address
`to_pkey` returns for the key, each pointer argument as reinterpreted to the
declared parameter type. -/
theorem DtoAAIndex_runtime_call (env : Env) (loc : Loc) (type : DType) (aa key : DValue)
    (lvalue : Bool) (s : IRState) :
    (DtoAAIndex env loc type aa key lvalue s).2.callsTo (if lvalue then "_aaGet" else "_aaGetRvalue") =
        s.callsTo (if lvalue then "_aaGet" else "_aaGetRvalue") ++
          [[(if lvalue then env.getLVal aa else env.getRVal aa).castTo
              ((LLVM_D_GetRuntimeFunction env
                (if lvalue then "_aaGet" else "_aaGetRvalue")).getParamType 0),
            (env.DtoTypeInfoOf key.getType).castTo
              ((LLVM_D_GetRuntimeFunction env
                (if lvalue then "_aaGet" else "_aaGetRvalue")).getParamType 1),
            DtoConstSize_t env (env.getTypePaddedSize (env.DtoType type)),
            (to_pkey env loc key s).1.castTo
              ((LLVM_D_GetRuntimeFunction env
                (if lvalue then "_aaGet" else "_aaGetRvalue")).getParamType 3)]] ∧
      (DtoAAIndex env loc type aa key lvalue s).2.callsTo
          (if lvalue then "_aaGetRvalue" else "_aaGet") =
        s.callsTo (if lvalue then "_aaGetRvalue" else "_aaGet") := by
  rw [DtoAAIndex_callsTo, DtoAAIndex_callsTo, ← pkeyVal_eq env loc key s]
  cases lvalue <;> simp [indexEntry, indexArgs, indexHandle, to_keyti]

/-- C7: for every container and key, `DtoAAIn` appends exactly one call, to
`_aaIn`, and `DtoAARemove` appends exactly one call, to `_aaDel`; each call has
exactly three arguments, in this order: the container handle read by value
(`getRVal`), the type descriptor of the key's type and the address `to_pkey`
returns for the key (each as reinterpreted to the declared parameter type), so
no value-size argument is passed.  `DtoAARemove` returns the context only: it
has no result value. -/
theorem DtoAAIn_DtoAARemove_runtime_call (env : Env) (loc : Loc) (type : DType) (aa key : DValue)
    (s : IRState) :
    ((DtoAAIn env loc type aa key s).2.callsTo "_aaIn" =
        s.callsTo "_aaIn" ++
          [[(env.getRVal aa).castTo ((LLVM_D_GetRuntimeFunction env "_aaIn").getParamType 0),
            (env.DtoTypeInfoOf key.getType).castTo
              ((LLVM_D_GetRuntimeFunction env "_aaIn").getParamType 1),
            (to_pkey env loc key s).1.castTo
              ((LLVM_D_GetRuntimeFunction env "_aaIn").getParamType 2)]] ∧
      (DtoAAIn env loc type aa key s).2.count Inst.isCall = s.count Inst.isCall + 1) ∧
    ((DtoAARemove env loc aa key s).callsTo "_aaDel" =
        s.callsTo "_aaDel" ++
          [[(env.getRVal aa).castTo ((LLVM_D_GetRuntimeFunction env "_aaDel").getParamType 0),
            (env.DtoTypeInfoOf key.getType).castTo
              ((LLVM_D_GetRuntimeFunction env "_aaDel").getParamType 1),
            (to_pkey env loc key s).1.castTo
              ((LLVM_D_GetRuntimeFunction env "_aaDel").getParamType 2)]] ∧
      (DtoAARemove env loc aa key s).count Inst.isCall = s.count Inst.isCall + 1) := by
  rw [DtoAAIn_callsTo, DtoAARemove_callsTo, ← pkeyVal_eq env loc key s,
    DtoAAIn_count _ _ _ _ _ _ _ (fun _ _ => rfl) (fun _ _ => rfl) (fun _ _ => rfl),
    DtoAARemove_count _ _ _ _ _ _ (fun _ _ => rfl) (fun _ _ => rfl) (fun _ _ => rfl)]
  simp [keyedArgs, keyedCall, to_keyti, Inst.isCall]

/-- C2: counting the blocks the core itself creates: `DtoAAIndex` in write mode
creates no block, appends no compare, no branch and no terminator, and leaves
the cursor as it was; `DtoAAIndex` in read mode creates exactly two blocks, one
named `aaboundscheckfail` and one named `aaboundsok`, both new; `DtoAAIn` and
`DtoAARemove` create no block and leave the cursor as it was. -/
theorem blocks_created (env : Env) (loc : Loc) (type : DType) (aa key : DValue) (s : IRState) :
    ((DtoAAIndex env loc type aa key true s).2.blocks = s.blocks ∧
      (DtoAAIndex env loc type aa key true s).2.count Inst.isCompare = s.count Inst.isCompare ∧
      (DtoAAIndex env loc type aa key true s).2.count Inst.isBranch = s.count Inst.isBranch ∧
      (DtoAAIndex env loc type aa key true s).2.count Inst.isTerminator =
        s.count Inst.isTerminator ∧
      (DtoAAIndex env loc type aa key true s).2.scope = s.scope) ∧
    ((DtoAAIndex env loc type aa key false s).2.blocks.Perm
        (⟨s.freshBlock, "aaboundscheckfail"⟩ :: ⟨s.freshBlock + 1, "aaboundsok"⟩ :: s.blocks) ∧
      (DtoAAIndex env loc type aa key false s).2.blocks.length = s.blocks.length + 2 ∧
      s.blocks.all (fun b => b.id != s.freshBlock && b.id != s.freshBlock + 1) = true) ∧
    ((DtoAAIn env loc type aa key s).2.blocks = s.blocks ∧
      (DtoAAIn env loc type aa key s).2.scope = s.scope) ∧
    ((DtoAARemove env loc aa key s).blocks = s.blocks ∧
      (DtoAARemove env loc aa key s).scope = s.scope) := by
  refine ⟨⟨?_, ?_, ?_, ?_, ?_⟩, ⟨?_, ?_, ?_⟩, ⟨?_, ?_⟩, ⟨?_, ?_⟩⟩
  · rw [DtoAAIndex_stage]; rfl
  · rw [DtoAAIndex_write_count _ _ _ _ _ _ _ (fun _ _ => rfl) (fun _ _ => rfl) (fun _ _ => rfl)]
    simp [indexCall, Inst.isCompare]
  · rw [DtoAAIndex_write_count _ _ _ _ _ _ _ (fun _ _ => rfl) (fun _ _ => rfl) (fun _ _ => rfl)]
    simp [indexCall, Inst.isBranch]
  · rw [DtoAAIndex_write_count _ _ _ _ _ _ _ (fun _ _ => rfl) (fun _ _ => rfl) (fun _ _ => rfl)]
    simp [indexCall, Inst.isTerminator]
  · rw [DtoAAIndex_stage]; rfl
  · rw [DtoAAIndex_stage]
    simp only [Bool.false_eq_true, reduceIte]
    refine (perm_insertBefore _ _ _).trans ?_
    refine (List.Perm.cons _ (perm_insertBefore _ _ _)).trans ?_
    exact List.Perm.swap _ _ _
  · rw [DtoAAIndex_stage]
    simp only [Bool.false_eq_true, reduceIte, length_insertBefore]
  · rw [List.all_eq_true]
    intro b hb
    have := block_lt_fresh s b hb
    simp only [Bool.and_eq_true, bne_iff_ne, ne_eq]
    omega
  · rw [DtoAAIn_eq]
  · rw [DtoAAIn_eq]
  · rw [DtoAARemove_eq]
  · rw [DtoAARemove_eq]

/-- C5: `to_pkey` by category.  A variable key: its existing address
(`getLVal`) is returned and nothing is emitted.  An immediate key of a type
passed by reference: its value (`getRVal`) is returned unchanged and nothing is
emitted.  An immediate key of a type passed by value, and a constant key
whatever its type: exactly one allocation of the key type's native type and
exactly one store of the key's value into it are emitted, and the fresh slot is
returned.  Materializing the same constant twice allocates two distinct
slots. -/
theorem to_pkey_by_category (env : Env) (loc : Loc) (s : IRState) :
    (∀ t v, to_pkey env loc (.DVarValue t v) s =
      (env.getLVal (.DVarValue t v),
       { s with accesses := s.accesses ++ [.lval (.DVarValue t v)] })) ∧
    (∀ t v, to_pkey env loc (.DImValue t v) s =
      if env.DtoIsPassedByRef t = true then
        (env.getRVal (.DImValue t v),
         { s with accesses := s.accesses ++ [.rval (.DImValue t v)] })
      else
        (.inst s.nextId (.ptr (env.DtoType t)),
         { s with
           code := s.code ++
             [(s.scope.begin,
               .store (env.getRVal (.DImValue t v)) (.inst s.nextId (.ptr (env.DtoType t))))]
           allocas := s.allocas ++ [.alloca s.nextId (env.DtoType t) "aatmpkeystorage"]
           nextId := s.nextId + 1
           accesses := s.accesses ++ [.rval (.DImValue t v)] })) ∧
    (∀ t c, to_pkey env loc (.DConstValue t c) s =
      (.inst s.nextId (.ptr (env.DtoType t)),
       { s with
         code := s.code ++
           [(s.scope.begin,
             .store (env.getRVal (.DConstValue t c)) (.inst s.nextId (.ptr (env.DtoType t))))]
         allocas := s.allocas ++ [.alloca s.nextId (env.DtoType t) "aatmpkeystorage"]
         nextId := s.nextId + 1
         accesses := s.accesses ++ [.rval (.DConstValue t c)] })) ∧
    (∀ t c,
      (to_pkey env loc (.DConstValue t c) (to_pkey env loc (.DConstValue t c) s).2).1 ≠
          (to_pkey env loc (.DConstValue t c) s).1 ∧
        (to_pkey env loc (.DConstValue t c) (to_pkey env loc (.DConstValue t c) s).2).2.allocas =
          s.allocas ++
            [.alloca s.nextId (env.DtoType t) "aatmpkeystorage",
             .alloca (s.nextId + 1) (env.DtoType t) "aatmpkeystorage"]) := by
  refine ⟨?_, ?_, ?_, ?_⟩
  · intro t v
    rw [to_pkey_eq]
    simp [pkeyVal, pkeyCode, pkeyAllocas, pkeyIds, pkeyAccess, keyNeedsSlot]
  · intro t v
    rw [to_pkey_eq]
    by_cases h : env.DtoIsPassedByRef t = true <;>
      simp [pkeyVal, pkeyCode, pkeyAllocas, pkeyIds, pkeyAccess, keyNeedsSlot, keySlot,
        DValue.getType, h]
  · intro t c
    rw [to_pkey_eq]
    simp [pkeyVal, pkeyCode, pkeyAllocas, pkeyIds, pkeyAccess, keyNeedsSlot, keySlot,
      DValue.getType]
  · intro t c
    rw [to_pkey_eq, to_pkey_eq]
    simp [pkeyVal, pkeyAllocas, pkeyIds, keyNeedsSlot, keySlot, DValue.getType]

/-- C6: each of the three operations materializes the key exactly once, through
exactly one address-producing path: the accesses an operation makes are the
read of the container followed by the single access `to_pkey` applies to the
key (`getRVal`, `getLVal` or `DtoAssign`).  For a computed key there is exactly
one allocation and one `DtoAssign` of the key into it, no `getRVal` or
`getLVal` on the key, no store, and the slot is what is returned. -/
theorem key_materialized_once (env : Env) (loc : Loc) (type : DType) (aa key : DValue)
    (lvalue : Bool) (s : IRState) :
    (∃ p : Access, p.operand = key ∧
      (p = .rval key ∨ p = .lval key ∨ p = .assign key) ∧
      (to_pkey env loc key s).2.accesses = s.accesses ++ [p] ∧
      (DtoAAIndex env loc type aa key lvalue s).2.accesses =
        s.accesses ++ [if lvalue then .lval aa else .rval aa, p] ∧
      (DtoAAIn env loc type aa key s).2.accesses = s.accesses ++ [.rval aa, p] ∧
      (DtoAARemove env loc aa key s).accesses = s.accesses ++ [.rval aa, p]) ∧
    (∀ t n, to_pkey env loc (.DOther t n) s =
      (.inst s.nextId (.ptr (env.DtoType t)),
       { s with
         code := s.code ++
           [(s.scope.begin,
             .assign (.DVarValue t (.inst s.nextId (.ptr (env.DtoType t)))) (.DOther t n))]
         allocas := s.allocas ++ [.alloca s.nextId (env.DtoType t) "aatmpkeystorage"]
         nextId := s.nextId + 1
         accesses := s.accesses ++ [.assign (.DOther t n)] })) := by
  refine ⟨⟨pkeyAccess key, pkeyAccess_operand key, ?_, ?_, ?_, ?_, ?_⟩, ?_⟩
  · cases key <;> simp [pkeyAccess]
  · rw [to_pkey_eq]
  · rw [DtoAAIndex_stage]
    cases lvalue <;> simp [indexState]
  · rw [DtoAAIn_eq]
  · rw [DtoAARemove_eq]
  · intro t n
    rw [to_pkey_eq]
    simp [pkeyVal, pkeyCode, pkeyAllocas, pkeyIds, pkeyAccess, keyNeedsSlot, keySlot,
      DValue.getType]

/-- C3: in read mode the block that was current on entry gets, after the
instructions of the call (none of them a terminator), the compare
`icmp ne null, ret` of the (cast) call result `ret` against the null value of
`ret`'s own type and the conditional branch on it, to the ok block when the
compare holds and to the fail block otherwise; the fail block consists of
exactly a load of the module's file name, a call to `_d_array_bounds` with the
two arguments (the loaded file value, the 32-bit constant `loc.linnum`) and an
unreachable terminator.  So, for the pointer `p` the runtime returns (null
being 0), control goes to the fail block exactly when `p` is null. -/
theorem bounds_check_branch (env : Env) (loc : Loc) (type : DType) (aa key : DValue)
    (s : IRState) :
    ∃ (callId : Nat) (args : List LLValue) (front : List Inst) (nid : Nat) (ret : LLValue),
      ret = (LLValue.inst callId (LLVM_D_GetRuntimeFunction env "_aaGetRvalue").ret).castTo
          (getPtrToType (env.DtoType type)) ∧
      (DtoAAIndex env loc type aa key false s).1 = .DVarValue type ret ∧
      Inst.call callId (LLVM_D_GetRuntimeFunction env "_aaGetRvalue") args "aa.index" ∈ front ∧
      front.all (fun i => !i.isTerminator) = true ∧
      (DtoAAIndex env loc type aa key false s).2.insts s.scope.begin =
        s.insts s.scope.begin ++ front ++
          [.icmpNE (.null ret.getType) ret "aaboundscheck",
           .condBr (.icmpNE (.null ret.getType) ret) (s.freshBlock + 1) s.freshBlock] ∧
      (DtoAAIndex env loc type aa key false s).2.insts s.freshBlock =
        [.load nid env.fileName,
         .call (nid + 1) (LLVM_D_GetRuntimeFunction env "_d_array_bounds")
           [.inst nid env.fileName.getType.pointee, DtoConstUint loc.linnum] "",
         .unreachable] ∧
      (LLVM_D_GetRuntimeFunction env "_d_array_bounds").name = "_d_array_bounds" ∧
      DtoConstUint loc.linnum = .constInt (.int 32) (loc.linnum % 2 ^ 32) ∧
      (⟨s.freshBlock, "aaboundscheckfail"⟩ : BasicBlock) ∈
        (DtoAAIndex env loc type aa key false s).2.blocks ∧
      (⟨s.freshBlock + 1, "aaboundsok"⟩ : BasicBlock) ∈
        (DtoAAIndex env loc type aa key false s).2.blocks ∧
      (∀ p : Nat,
        (Inst.condBr (.icmpNE (.null ret.getType) ret) (s.freshBlock + 1) s.freshBlock).target
            (evalICmpNE 0 p) = some s.freshBlock ↔ p = 0) ∧
      (∀ p : Nat,
        (Inst.condBr (.icmpNE (.null ret.getType) ret) (s.freshBlock + 1) s.freshBlock).target
            (evalICmpNE 0 p) = some (s.freshBlock + 1) ↔ p ≠ 0) := by
  refine ⟨s.nextId + pkeyIds env key, indexArgs env type aa key false s.nextId,
    indexCode env type aa key false s.nextId, s.nextId + pkeyIds env key + 1,
    indexRet env type key false s.nextId, rfl, ?_, ?_, ?_, ?_, ?_, rfl, rfl, ?_, ?_, ?_, ?_⟩
  · rw [DtoAAIndex_stage]
  · simp [indexCode, indexCall, indexEntry]
  · have h := indexCode_terminators env type aa key false s.nextId
    rw [List.countP_eq_zero] at h
    rw [List.all_eq_true]
    intro i hi
    simpa using h i hi
  · rw [DtoAAIndex_read_insts]
    have h : s.freshBlock ≠ s.scope.begin := Nat.ne_of_gt (scope_begin_lt_fresh s)
    simp [h, checkCode]
  · rw [DtoAAIndex_read_insts, insts_fresh s _ (Nat.le_refl _)]
    have h : s.scope.begin ≠ s.freshBlock := Nat.ne_of_lt (scope_begin_lt_fresh s)
    simp [h, failCode]
  · rw [DtoAAIndex_stage]
    simp [mem_insertBefore]
  · rw [DtoAAIndex_stage]
    simp [mem_insertBefore]
  · intro p
    by_cases hp : p = 0
    · simp [Inst.target, evalICmpNE, hp]
    · have h0 : ¬ (0 = p) := fun h => hp h.symm
      simp [Inst.target, evalICmpNE, hp, h0]
  · intro p
    by_cases hp : p = 0
    · simp [Inst.target, evalICmpNE, hp]
    · have h0 : ¬ (0 = p) := fun h => hp h.symm
      simp [Inst.target, evalICmpNE, hp, h0]

/-- C4: after a read-mode `DtoAAIndex` on a context whose current block is not
yet terminated, the cursor is coherent: the current block is the new ok block,
which holds no instruction and no terminator; the scope's end block is the one
it was on entry; the block that was current and the fail block each hold
exactly one terminator, as their last instruction; no other block is touched.
In write mode, and for `DtoAAIn` and `DtoAARemove`, the scope's end block is
also the one it was on entry. -/
theorem cursor_coherent (env : Env) (loc : Loc) (type : DType) (aa key : DValue) (s : IRState)
    (h : (s.insts s.scope.begin).all (fun i => !i.isTerminator) = true) :
    ((DtoAAIndex env loc type aa key false s).2.scope.begin = s.freshBlock + 1 ∧
      (⟨s.freshBlock + 1, "aaboundsok"⟩ : BasicBlock) ∈
        (DtoAAIndex env loc type aa key false s).2.blocks ∧
      (DtoAAIndex env loc type aa key false s).2.insts (s.freshBlock + 1) = [] ∧
      (DtoAAIndex env loc type aa key false s).2.scope.end_ = s.scope.end_) ∧
    (((DtoAAIndex env loc type aa key false s).2.insts s.scope.begin).countP Inst.isTerminator = 1 ∧
      ((DtoAAIndex env loc type aa key false s).2.insts s.scope.begin).getLast?.map
        Inst.isTerminator = some true) ∧
    (((DtoAAIndex env loc type aa key false s).2.insts s.freshBlock).countP Inst.isTerminator = 1 ∧
      ((DtoAAIndex env loc type aa key false s).2.insts s.freshBlock).getLast?.map
        Inst.isTerminator = some true) ∧
    (∀ b : Nat, b = s.scope.begin ∨ b = s.freshBlock ∨
      (DtoAAIndex env loc type aa key false s).2.insts b = s.insts b) ∧
    ((DtoAAIndex env loc type aa key true s).2.scope.end_ = s.scope.end_ ∧
      (DtoAAIn env loc type aa key s).2.scope.end_ = s.scope.end_ ∧
      (DtoAARemove env loc aa key s).scope.end_ = s.scope.end_) := by
  have hne : s.freshBlock ≠ s.scope.begin := Nat.ne_of_gt (scope_begin_lt_fresh s)
  have h0 : (s.insts s.scope.begin).countP Inst.isTerminator = 0 := by
    rw [List.countP_eq_zero]
    intro i hi
    have := (List.all_eq_true.mp h) i hi
    simpa using this
  refine ⟨⟨?_, ?_, ?_, ?_⟩, ⟨?_, ?_⟩, ⟨?_, ?_⟩, ?_, ?_, ?_, ?_⟩
  · rw [DtoAAIndex_stage]; rfl
  · rw [DtoAAIndex_stage]
    simp [mem_insertBefore]
  · rw [DtoAAIndex_read_insts, insts_fresh s _ (Nat.le_succ _)]
    have h1 : s.scope.begin ≠ s.freshBlock + 1 := by
      have := scope_begin_lt_fresh s
      omega
    simp [h1]
  · rw [DtoAAIndex_stage]; rfl
  · rw [DtoAAIndex_read_insts]
    simp [hne, List.countP_append, h0, indexCode_terminators, checkCode, Inst.isTerminator]
  · rw [DtoAAIndex_read_insts]
    simp [hne, checkCode, Inst.isTerminator, List.getLast?_append]
  · rw [DtoAAIndex_read_insts, insts_fresh s _ (Nat.le_refl _)]
    simp [Ne.symm hne, failCode, Inst.isTerminator]
  · rw [DtoAAIndex_read_insts, insts_fresh s _ (Nat.le_refl _)]
    simp [Ne.symm hne, failCode, Inst.isTerminator]
  · intro b
    by_cases h1 : b = s.scope.begin
    · exact Or.inl h1
    · by_cases h2 : b = s.freshBlock
      · exact Or.inr (Or.inl h2)
      · refine Or.inr (Or.inr ?_)
        rw [DtoAAIndex_read_insts]
        simp [Ne.symm h1, Ne.symm h2]
  · rw [DtoAAIndex_stage]; rfl
  · rw [DtoAAIn_eq]
  · rw [DtoAARemove_eq]

/-- C8: `DtoAAIndex`, in both modes, returns a variable descriptor of the
element type whose address is the call result reinterpreted to
pointer-to-native(element type), and has exactly that type; `DtoAAIn` returns
an immediate descriptor of the result type whose value is the call result
reinterpreted to native(result type), and has exactly that type.  In both,
right after the call, a cast of the call result is emitted exactly when the
declared return type differs from the target type (no cast follows it
otherwise), and the value returned is then the cast, else the call result
itself. -/
theorem result_descriptors (env : Env) (loc : Loc) (type : DType) (aa key : DValue)
    (lvalue : Bool) (s : IRState) :
    (∃ (callId : Nat) (args : List LLValue) (front back : List Inst) (ret : LLValue),
      (DtoAAIndex env loc type aa key lvalue s).1 = .DVarValue type ret ∧
      ret.getType = getPtrToType (env.DtoType type) ∧
      ret =
        (if (LLVM_D_GetRuntimeFunction env (if lvalue then "_aaGet" else "_aaGetRvalue")).ret =
            getPtrToType (env.DtoType type) then
          .inst callId (LLVM_D_GetRuntimeFunction env (if lvalue then "_aaGet" else "_aaGetRvalue")).ret
        else
          .cast
            (.inst callId
              (LLVM_D_GetRuntimeFunction env (if lvalue then "_aaGet" else "_aaGetRvalue")).ret)
            (getPtrToType (env.DtoType type))) ∧
      (DtoAAIndex env loc type aa key lvalue s).2.emittedSince s =
        front ++
          [.call callId (LLVM_D_GetRuntimeFunction env (if lvalue then "_aaGet" else "_aaGetRvalue"))
            args "aa.index"] ++
          (if (LLVM_D_GetRuntimeFunction env (if lvalue then "_aaGet" else "_aaGetRvalue")).ret =
              getPtrToType (env.DtoType type) then []
            else
              [.bitcast
                (.inst callId
                  (LLVM_D_GetRuntimeFunction env (if lvalue then "_aaGet" else "_aaGetRvalue")).ret)
                (getPtrToType (env.DtoType type))]) ++
          back ∧
      front.all (fun i => !i.isCall) = true ∧
      back.all (fun i => !i.isBitCast) = true) ∧
    (∃ (callId : Nat) (args : List LLValue) (front : List Inst) (ret : LLValue),
      (DtoAAIn env loc type aa key s).1 = .DImValue type ret ∧
      ret.getType = env.DtoType type ∧
      ret =
        (if (LLVM_D_GetRuntimeFunction env "_aaIn").ret = env.DtoType type then
          .inst callId (LLVM_D_GetRuntimeFunction env "_aaIn").ret
        else .cast (.inst callId (LLVM_D_GetRuntimeFunction env "_aaIn").ret) (env.DtoType type)) ∧
      (DtoAAIn env loc type aa key s).2.emittedSince s =
        front ++ [.call callId (LLVM_D_GetRuntimeFunction env "_aaIn") args "aa.in"] ++
          (if (LLVM_D_GetRuntimeFunction env "_aaIn").ret = env.DtoType type then []
            else
              [.bitcast (.inst callId (LLVM_D_GetRuntimeFunction env "_aaIn").ret)
                (env.DtoType type)]) ∧
      front.all (fun i => !i.isCall) = true) := by
  constructor
  · refine ⟨s.nextId + pkeyIds env key, indexArgs env type aa key lvalue s.nextId,
      indexPre env aa key lvalue s.nextId,
      if lvalue then []
      else
        checkCode (indexRet env type key lvalue s.nextId) (s.freshBlock + 1) s.freshBlock ++
          failCode env loc (s.nextId + pkeyIds env key + 1),
      indexRet env type key lvalue s.nextId, ?_, ?_, ?_, ?_, ?_, ?_⟩
    · rw [DtoAAIndex_stage]
    · exact castTo_getType _ _
    · cases lvalue <;> simp [indexRet, indexCallRes, indexEntry, LLValue.castTo, LLValue.getType]
    · unfold IRState.emittedSince
      rw [DtoAAIndex_code]
      cases lvalue <;>
        simp [indexCode, indexCall, indexCallRes, indexEntry, castCode, LLValue.getType]
    · have h := indexPre_countP env aa key lvalue s.nextId Inst.isCall (fun _ _ => rfl)
        (fun _ _ => rfl) (fun _ _ => rfl)
      rw [List.countP_eq_zero] at h
      rw [List.all_eq_true]
      intro i hi
      simpa using h i hi
    · cases lvalue <;> simp [checkCode, failCode, Inst.isBitCast]
  · refine ⟨s.nextId + pkeyIds env key, keyedArgs env "_aaIn" aa key s.nextId,
      keyedPre env "_aaIn" aa key s.nextId,
      (inCallRes env key s.nextId).castTo (env.DtoType type), ?_, ?_, ?_, ?_, ?_⟩
    · rw [DtoAAIn_eq]
    · exact castTo_getType _ _
    · simp [inCallRes, LLValue.castTo, LLValue.getType]
    · rw [DtoAAIn_eq]
      simp [IRState.emittedSince, keyedCall, inCallRes, castCode, LLValue.getType]
    · have h := keyedPre_countP env "_aaIn" aa key s.nextId Inst.isCall (fun _ _ => rfl)
        (fun _ _ => rfl) (fun _ _ => rfl)
      rw [List.countP_eq_zero] at h
      rw [List.all_eq_true]
      intro i hi
      simpa using h i hi

/-- C4, at a concrete input: the sample context has an unterminated current
block, and the read-mode access leaves the cursor coherent. -/
theorem cursor_coherent_witness :
    (demoState.insts demoState.scope.begin).all (fun i => !i.isTerminator) = true ∧
    (((DtoAAIndex demoEnv ⟨42⟩ ⟨32⟩ demoAA demoKey false demoState).2.scope.begin =
        demoState.freshBlock + 1 ∧
      (⟨demoState.freshBlock + 1, "aaboundsok"⟩ : BasicBlock) ∈
        (DtoAAIndex demoEnv ⟨42⟩ ⟨32⟩ demoAA demoKey false demoState).2.blocks ∧
      (DtoAAIndex demoEnv ⟨42⟩ ⟨32⟩ demoAA demoKey false demoState).2.insts
        (demoState.freshBlock + 1) = [] ∧
      (DtoAAIndex demoEnv ⟨42⟩ ⟨32⟩ demoAA demoKey false demoState).2.scope.end_ =
        demoState.scope.end_) ∧
    (((DtoAAIndex demoEnv ⟨42⟩ ⟨32⟩ demoAA demoKey false demoState).2.insts
        demoState.scope.begin).countP Inst.isTerminator = 1 ∧
      ((DtoAAIndex demoEnv ⟨42⟩ ⟨32⟩ demoAA demoKey false demoState).2.insts
        demoState.scope.begin).getLast?.map Inst.isTerminator = some true) ∧
    (((DtoAAIndex demoEnv ⟨42⟩ ⟨32⟩ demoAA demoKey false demoState).2.insts
        demoState.freshBlock).countP Inst.isTerminator = 1 ∧
      ((DtoAAIndex demoEnv ⟨42⟩ ⟨32⟩ demoAA demoKey false demoState).2.insts
        demoState.freshBlock).getLast?.map Inst.isTerminator = some true) ∧
    (∀ b : Nat, b = demoState.scope.begin ∨ b = demoState.freshBlock ∨
      (DtoAAIndex demoEnv ⟨42⟩ ⟨32⟩ demoAA demoKey false demoState).2.insts b =
        demoState.insts b) ∧
    ((DtoAAIndex demoEnv ⟨42⟩ ⟨32⟩ demoAA demoKey true demoState).2.scope.end_ =
        demoState.scope.end_ ∧
      (DtoAAIn demoEnv ⟨42⟩ ⟨32⟩ demoAA demoKey demoState).2.scope.end_ = demoState.scope.end_ ∧
      (DtoAARemove demoEnv ⟨42⟩ demoAA demoKey demoState).scope.end_ = demoState.scope.end_)) :=
  ⟨by decide, cursor_coherent demoEnv ⟨42⟩ ⟨32⟩ demoAA demoKey demoState (by decide)⟩

/-- C9: for each of the three operations, and for every resolved signature
whose value-size parameter is declared `size_t` (the signature the source
documents: `size_t valuesize`), every argument of the emitted call is the
operand reinterpreted (`DtoBitCast`) to the declared type of the parameter at
its own position, so argument `i` has exactly the declared type of parameter
`i`: all four arguments of the indexed-access call and all three arguments of
the membership and removal calls.  For the value byte-size, which is built as
a `size_t` constant, that reinterpretation is the identity and emits
nothing. -/
theorem runtime_args_reinterpreted (env : Env) (loc : Loc) (type : DType) (aa key : DValue)
    (lvalue : Bool) (s : IRState)
    (hsz : env.DtoSize_t =
      (LLVM_D_GetRuntimeFunction env (if lvalue then "_aaGet" else "_aaGetRvalue")).getParamType 2) :
    (∃ a0 a1 a2 a3 : LLValue,
      (DtoAAIndex env loc type aa key lvalue s).2.callsTo
          (if lvalue then "_aaGet" else "_aaGetRvalue") =
        s.callsTo (if lvalue then "_aaGet" else "_aaGetRvalue") ++ [[a0, a1, a2, a3]] ∧
      (a0 = (if lvalue then env.getLVal aa else env.getRVal aa).castTo
          ((LLVM_D_GetRuntimeFunction env
            (if lvalue then "_aaGet" else "_aaGetRvalue")).getParamType 0) ∧
        a1 = (env.DtoTypeInfoOf key.getType).castTo
          ((LLVM_D_GetRuntimeFunction env
            (if lvalue then "_aaGet" else "_aaGetRvalue")).getParamType 1) ∧
        a2 = (DtoConstSize_t env (env.getTypePaddedSize (env.DtoType type))).castTo
          ((LLVM_D_GetRuntimeFunction env
            (if lvalue then "_aaGet" else "_aaGetRvalue")).getParamType 2) ∧
        a3 = (to_pkey env loc key s).1.castTo
          ((LLVM_D_GetRuntimeFunction env
            (if lvalue then "_aaGet" else "_aaGetRvalue")).getParamType 3)) ∧
      (a0.getType =
          (LLVM_D_GetRuntimeFunction env
            (if lvalue then "_aaGet" else "_aaGetRvalue")).getParamType 0 ∧
        a1.getType =
          (LLVM_D_GetRuntimeFunction env
            (if lvalue then "_aaGet" else "_aaGetRvalue")).getParamType 1 ∧
        a2.getType =
          (LLVM_D_GetRuntimeFunction env
            (if lvalue then "_aaGet" else "_aaGetRvalue")).getParamType 2 ∧
        a3.getType =
          (LLVM_D_GetRuntimeFunction env
            (if lvalue then "_aaGet" else "_aaGetRvalue")).getParamType 3) ∧
      a2 = DtoConstSize_t env (env.getTypePaddedSize (env.DtoType type)) ∧
      (∀ s2 : IRState,
        DtoBitCast (DtoConstSize_t env (env.getTypePaddedSize (env.DtoType type)))
            ((LLVM_D_GetRuntimeFunction env
              (if lvalue then "_aaGet" else "_aaGetRvalue")).getParamType 2) s2 =
          (DtoConstSize_t env (env.getTypePaddedSize (env.DtoType type)), s2))) ∧
    (∃ a0 a1 a2 : LLValue,
      (DtoAAIn env loc type aa key s).2.callsTo "_aaIn" = s.callsTo "_aaIn" ++ [[a0, a1, a2]] ∧
      (a0 = (env.getRVal aa).castTo ((LLVM_D_GetRuntimeFunction env "_aaIn").getParamType 0) ∧
        a1 = (env.DtoTypeInfoOf key.getType).castTo
          ((LLVM_D_GetRuntimeFunction env "_aaIn").getParamType 1) ∧
        a2 = (to_pkey env loc key s).1.castTo
          ((LLVM_D_GetRuntimeFunction env "_aaIn").getParamType 2)) ∧
      a0.getType = (LLVM_D_GetRuntimeFunction env "_aaIn").getParamType 0 ∧
      a1.getType = (LLVM_D_GetRuntimeFunction env "_aaIn").getParamType 1 ∧
      a2.getType = (LLVM_D_GetRuntimeFunction env "_aaIn").getParamType 2) ∧
    (∃ a0 a1 a2 : LLValue,
      (DtoAARemove env loc aa key s).callsTo "_aaDel" = s.callsTo "_aaDel" ++ [[a0, a1, a2]] ∧
      (a0 = (env.getRVal aa).castTo ((LLVM_D_GetRuntimeFunction env "_aaDel").getParamType 0) ∧
        a1 = (env.DtoTypeInfoOf key.getType).castTo
          ((LLVM_D_GetRuntimeFunction env "_aaDel").getParamType 1) ∧
        a2 = (to_pkey env loc key s).1.castTo
          ((LLVM_D_GetRuntimeFunction env "_aaDel").getParamType 2)) ∧
      a0.getType = (LLVM_D_GetRuntimeFunction env "_aaDel").getParamType 0 ∧
      a1.getType = (LLVM_D_GetRuntimeFunction env "_aaDel").getParamType 1 ∧
      a2.getType = (LLVM_D_GetRuntimeFunction env "_aaDel").getParamType 2) := by
  have hty : (DtoConstSize_t env (env.getTypePaddedSize (env.DtoType type))).getType =
      (LLVM_D_GetRuntimeFunction env
        (if lvalue then "_aaGet" else "_aaGetRvalue")).getParamType 2 := hsz
  have hid : (DtoConstSize_t env (env.getTypePaddedSize (env.DtoType type))).castTo
      ((LLVM_D_GetRuntimeFunction env
        (if lvalue then "_aaGet" else "_aaGetRvalue")).getParamType 2) =
        DtoConstSize_t env (env.getTypePaddedSize (env.DtoType type)) := by
    unfold LLValue.castTo
    rw [if_pos hty]
  refine ⟨⟨_, _, _, _, ?_,
      ⟨rfl, rfl, hid.symm, rfl⟩,
      ⟨castTo_getType _ _, castTo_getType _ _, hty, castTo_getType _ _⟩, rfl, ?_⟩,
    ⟨_, _, _, ?_, ⟨rfl, rfl, rfl⟩, castTo_getType _ _, castTo_getType _ _, castTo_getType _ _⟩,
    ⟨_, _, _, ?_, ⟨rfl, rfl, rfl⟩, castTo_getType _ _, castTo_getType _ _, castTo_getType _ _⟩⟩
  · rw [DtoAAIndex_callsTo, ← pkeyVal_eq env loc key s]
    cases lvalue <;> simp [indexEntry, indexArgs, indexHandle, to_keyti]
  · intro s2
    unfold DtoBitCast
    rw [hid, if_pos hty]
  · rw [DtoAAIn_callsTo, ← pkeyVal_eq env loc key s]
    simp [keyedArgs, to_keyti]
  · rw [DtoAARemove_callsTo, ← pkeyVal_eq env loc key s]
    simp [keyedArgs, to_keyti]

/-- C9, at a concrete input: the sample environment declares the value size of
`_aaGet` as its `size_t`, and every argument of the three calls has the
declared type of its parameter. -/
theorem runtime_args_reinterpreted_witness :
    (demoEnv.DtoSize_t =
      (LLVM_D_GetRuntimeFunction demoEnv (if true then "_aaGet" else "_aaGetRvalue")).getParamType 2) ∧
    ((∃ a0 a1 a2 a3 : LLValue,
      (DtoAAIndex demoEnv ⟨42⟩ ⟨32⟩ demoAA demoKey true demoState).2.callsTo
          (if true then "_aaGet" else "_aaGetRvalue") =
        demoState.callsTo (if true then "_aaGet" else "_aaGetRvalue") ++ [[a0, a1, a2, a3]] ∧
      (a0 = (if true then demoEnv.getLVal demoAA else demoEnv.getRVal demoAA).castTo
          ((LLVM_D_GetRuntimeFunction demoEnv
            (if true then "_aaGet" else "_aaGetRvalue")).getParamType 0) ∧
        a1 = (demoEnv.DtoTypeInfoOf demoKey.getType).castTo
          ((LLVM_D_GetRuntimeFunction demoEnv
            (if true then "_aaGet" else "_aaGetRvalue")).getParamType 1) ∧
        a2 = (DtoConstSize_t demoEnv (demoEnv.getTypePaddedSize (demoEnv.DtoType ⟨32⟩))).castTo
          ((LLVM_D_GetRuntimeFunction demoEnv
            (if true then "_aaGet" else "_aaGetRvalue")).getParamType 2) ∧
        a3 = (to_pkey demoEnv ⟨42⟩ demoKey demoState).1.castTo
          ((LLVM_D_GetRuntimeFunction demoEnv
            (if true then "_aaGet" else "_aaGetRvalue")).getParamType 3)) ∧
      (a0.getType =
          (LLVM_D_GetRuntimeFunction demoEnv
            (if true then "_aaGet" else "_aaGetRvalue")).getParamType 0 ∧
        a1.getType =
          (LLVM_D_GetRuntimeFunction demoEnv
            (if true then "_aaGet" else "_aaGetRvalue")).getParamType 1 ∧
        a2.getType =
          (LLVM_D_GetRuntimeFunction demoEnv
            (if true then "_aaGet" else "_aaGetRvalue")).getParamType 2 ∧
        a3.getType =
          (LLVM_D_GetRuntimeFunction demoEnv
            (if true then "_aaGet" else "_aaGetRvalue")).getParamType 3) ∧
      a2 = DtoConstSize_t demoEnv (demoEnv.getTypePaddedSize (demoEnv.DtoType ⟨32⟩)) ∧
      (∀ s2 : IRState,
        DtoBitCast (DtoConstSize_t demoEnv (demoEnv.getTypePaddedSize (demoEnv.DtoType ⟨32⟩)))
            ((LLVM_D_GetRuntimeFunction demoEnv
              (if true then "_aaGet" else "_aaGetRvalue")).getParamType 2) s2 =
          (DtoConstSize_t demoEnv (demoEnv.getTypePaddedSize (demoEnv.DtoType ⟨32⟩)), s2))) ∧
    (∃ a0 a1 a2 : LLValue,
      (DtoAAIn demoEnv ⟨42⟩ ⟨32⟩ demoAA demoKey demoState).2.callsTo "_aaIn" = demoState.callsTo "_aaIn" ++ [[a0, a1, a2]] ∧
      (a0 = (demoEnv.getRVal demoAA).castTo ((LLVM_D_GetRuntimeFunction demoEnv "_aaIn").getParamType 0) ∧
        a1 = (demoEnv.DtoTypeInfoOf demoKey.getType).castTo
          ((LLVM_D_GetRuntimeFunction demoEnv "_aaIn").getParamType 1) ∧
        a2 = (to_pkey demoEnv ⟨42⟩ demoKey demoState).1.castTo
          ((LLVM_D_GetRuntimeFunction demoEnv "_aaIn").getParamType 2)) ∧
      a0.getType = (LLVM_D_GetRuntimeFunction demoEnv "_aaIn").getParamType 0 ∧
      a1.getType = (LLVM_D_GetRuntimeFunction demoEnv "_aaIn").getParamType 1 ∧
      a2.getType = (LLVM_D_GetRuntimeFunction demoEnv "_aaIn").getParamType 2) ∧
    (∃ a0 a1 a2 : LLValue,
      (DtoAARemove demoEnv ⟨42⟩ demoAA demoKey demoState).callsTo "_aaDel" = demoState.callsTo "_aaDel" ++ [[a0, a1, a2]] ∧
      (a0 = (demoEnv.getRVal demoAA).castTo ((LLVM_D_GetRuntimeFunction demoEnv "_aaDel").getParamType 0) ∧
        a1 = (demoEnv.DtoTypeInfoOf demoKey.getType).castTo
          ((LLVM_D_GetRuntimeFunction demoEnv "_aaDel").getParamType 1) ∧
        a2 = (to_pkey demoEnv ⟨42⟩ demoKey demoState).1.castTo
          ((LLVM_D_GetRuntimeFunction demoEnv "_aaDel").getParamType 2)) ∧
      a0.getType = (LLVM_D_GetRuntimeFunction demoEnv "_aaDel").getParamType 0 ∧
      a1.getType = (LLVM_D_GetRuntimeFunction demoEnv "_aaDel").getParamType 1 ∧
      a2.getType = (LLVM_D_GetRuntimeFunction demoEnv "_aaDel").getParamType 2)) :=
  ⟨by decide,
    runtime_args_reinterpreted demoEnv ⟨42⟩ ⟨32⟩ demoAA demoKey true demoState (by decide)⟩

/-- C10, as stated, fails: in the sample context the current block is block 1
and the scope's end block is block 2; the read-mode access lays the function
out as entry, fail, ok, end, so the two new blocks come after the block that
was current, not before it. -/
theorem bounds_blocks_not_before_current :
    demoState.scope.begin = 1 ∧
    (DtoAAIndex demoEnv ⟨42⟩ ⟨32⟩ demoAA demoKey false demoState).2.blocks =
      [⟨1, "entry"⟩, ⟨3, "aaboundscheckfail"⟩, ⟨4, "aaboundsok"⟩, ⟨2, "endentry"⟩] ∧
    ¬ List.IsInfix [3, 4, 1]
        (DtoAAIndex demoEnv ⟨42⟩ ⟨32⟩ demoAA demoKey false demoState).2.layout := by
  decide

/-- C10, amended: in read mode the two new blocks are inserted into the
function's block list immediately before the block that was the end block of
the scope on entry (at the end of the list when the scope has no end block),
fail before ok: if the block list is `pre ++ post`, where no block of `pre` is
the scope's end block and `post` starts with it (or is empty when there is
none), the list becomes `pre ++ fail :: ok :: post`. -/
theorem bounds_blocks_before_scope_end (env : Env) (loc : Loc) (type : DType) (aa key : DValue)
    (s : IRState) (pre post : List BasicBlock) (hl : s.blocks = pre ++ post)
    (hpre : ∀ x ∈ pre, some x.id ≠ s.scope.end_)
    (hpost : post.head?.map (fun x => x.id) = s.scope.end_) :
    (DtoAAIndex env loc type aa key false s).2.blocks =
      pre ++ ⟨s.freshBlock, "aaboundscheckfail"⟩ :: ⟨s.freshBlock + 1, "aaboundsok"⟩ :: post := by
  rw [DtoAAIndex_stage]
  simp only [Bool.false_eq_true, reduceIte]
  rw [hl, insertBefore_split _ _ pre post hpre hpost]
  have h2 : ∀ x ∈ pre ++ [(⟨s.freshBlock, "aaboundscheckfail"⟩ : BasicBlock)],
      some x.id ≠ s.scope.end_ := by
    intro x hx
    rcases List.mem_append.mp hx with hx | hx
    · exact hpre x hx
    · rw [List.mem_singleton] at hx
      subst hx
      intro he
      exact Nat.lt_irrefl _ (scope_end_lt_fresh s _ he.symm)
  have h3 := insertBefore_split ⟨s.freshBlock + 1, "aaboundsok"⟩ s.scope.end_
    (pre ++ [(⟨s.freshBlock, "aaboundscheckfail"⟩ : BasicBlock)]) post h2 hpost
  simpa using h3

/-- C10, amended, at a concrete input: in the sample context the new blocks
land between the entry block and the scope's end block. -/
theorem bounds_blocks_before_scope_end_witness :
    demoState.blocks = [⟨1, "entry"⟩] ++ [⟨2, "endentry"⟩] ∧
    (∀ x ∈ [(⟨1, "entry"⟩ : BasicBlock)], some x.id ≠ demoState.scope.end_) ∧
    ([(⟨2, "endentry"⟩ : BasicBlock)].head?.map (fun x => x.id) = demoState.scope.end_) ∧
    (DtoAAIndex demoEnv ⟨42⟩ ⟨32⟩ demoAA demoKey false demoState).2.blocks =
      [⟨1, "entry"⟩] ++
        ⟨demoState.freshBlock, "aaboundscheckfail"⟩ ::
          ⟨demoState.freshBlock + 1, "aaboundsok"⟩ :: [⟨2, "endentry"⟩] :=
  ⟨by decide, by decide, by decide,
    bounds_blocks_before_scope_end demoEnv ⟨42⟩ ⟨32⟩ demoAA demoKey demoState
      [⟨1, "entry"⟩] [⟨2, "endentry"⟩] (by decide) (by decide) (by decide)⟩

end AA
